import Mathlib

/-!
Verification of the `task` script-execution engine and its flag/command
resolver, against a shallow embedding of the Go sources.

The embedding mirrors:
  * the Script/Action/State engine with bitmask policies, rollback and
    defer bookkeeping (package file defining `script.RunAction`,
    `script.Run`, `script.Rollback`, `script.Defer`, `Policy`);
  * the `Command`/`Flag` resolver (`command.go`: `Command.Exec`,
    `flagStatus.init`, `flagStatus.set`, `Command.helpError`).

Go's in-place mutation is rendered as explicit state passing; `context`
cancellation is a boolean signal indexed by a poll counter; maps are
association lists (Go's map iteration order is random, but every
iteration in the modelled code writes distinct keys, so the result is
order independent); errors are a structured type whose constructors
stand for the distinct error values the code builds.
-/

namespace TaskSpec

/-- Dynamically typed values stored in `State.bucket`, in `Flag.Default`
and produced by flag parsing.  Constructors record the Go dynamic type
(`int`, `int32' and `int64` are distinct Go types; the engine's numeric
widening is observable).  Go `float32`/`float64` are modelled as `Rat`
(no claim exercises floating point) and `time.Duration` as its `int64`
nanosecond count. -/
inductive Val where
  | vStr (s : String)
  | vBool (b : Bool)
  | vInt (n : Int)
  | vInt32 (n : Int)
  | vInt64 (n : Int)
  | vFloat32 (q : Rat)
  | vFloat64 (q : Rat)
  | vDur (n : Int)
  | vStrList (ss : List String)
deriving DecidableEq, Repr

/-- A bound external memory cell held in `Flag.Value`: in Go a typed
pointer (`*string`, `*bool`, `*int32`, `*int`, `*int64`, `*float32`,
`*float64`, `*time.Duration`); the cell's current contents are stored
in place of the pointer. -/
inductive VCell where
  | cStr (s : String)
  | cBool (b : Bool)
  | cInt32 (n : Int)
  | cInt (n : Int)
  | cInt64 (n : Int)
  | cFloat32 (q : Rat)
  | cFloat64 (q : Rat)
  | cDur (n : Int)
deriving DecidableEq, Repr

/-- The distinct error values built by the modelled code.
`canceled` is `context.Canceled`; `eofE` is `io.EOF` (used as the
internal end-of-script sentinel); `emsg` covers `errors.New` and plain
`fmt.Errorf`; `usage` is the `ErrUsage` kind; `rollbackFailed e re` is
`fmt.Errorf("%v, rollback failed: %v", e, re)`.  `outOfFuel` and
`nilScriptFault` are model artifacts: the first marks exhaustion of the
step budget (never reached with ample fuel), the second stands for the
Go panic of calling a method on a nil `Script` interface. -/
inductive GoErr where
  | canceled
  | eofE
  | emsg (s : String)
  | usage (s : String)
  | rollbackFailed (orig : GoErr) (rb : GoErr)
  | outOfFuel
  | nilScriptFault
deriving DecidableEq, Repr

/-- Association-list lookup, modelling Go map indexing (keys unique). -/
def alistGet {α : Type} (l : List (String × α)) (k : String) : Option α :=
  match l with
  | [] => none
  | (k2, v) :: rest => if k2 = k then some v else alistGet rest k

/-- Association-list update-or-append, modelling Go map assignment. -/
def upsert {α : Type} (k : String) (v : α) : List (String × α) → List (String × α)
  | [] => [(k, v)]
  | (k2, v2) :: rest => if k2 = k then (k, v) :: rest else (k2, v2) :: upsert k v rest

/-- The mutable per-run `State`.  `Env` is the `map[string]string`
environment, `bucket` the dynamically typed variable bucket.  The two
optional loggers are modelled by their observable effect: `errLog`
collects the errors passed to `State.Error`, `msgLog` the messages
passed to `State.Log`.  The `Stdout`/`Stderr` stream handles carry no
engine-visible structure and are omitted. -/
structure GoState where
  Env : List (String × String)
  Dir : String
  Branch : Int
  Policy : Nat
  bucket : List (String × Val)
  errLog : List GoErr
  msgLog : List String
deriving DecidableEq, Repr

/-- `State.Get`: read a bucket variable (`nil` for a missing key is
`none`). -/
def stGet (st : GoState) (name : String) : Option Val :=
  alistGet st.bucket name

/-- `State.Set`: write a bucket variable. -/
def stSet (st : GoState) (name : String) (v : Val) : GoState :=
  { st with bucket := upsert name v st.bucket }

/-- `State.Delete`: remove a bucket variable. -/
def stDelete (st : GoState) (name : String) : GoState :=
  { st with bucket := st.bucket.filter (fun p => !(p.1 = name)) }

/-- `State.Error`: report an error through the error logger. -/
def stError (st : GoState) (e : GoErr) : GoState :=
  { st with errLog := st.errLog ++ [e] }

/-- Environment lookup `st.Env[name]`. -/
def envGet (env : List (String × String)) (name : String) : Option String :=
  alistGet env name

/-! Policy bit values, from the Go constant block:
`PolicyFail = 0`, `PolicyContinue = 1 << 1 = 2`, `PolicyLog = 1 << 2 = 4`,
`PolicySkipRollback = 1 << 3 = 8`. -/

def policyFail : Nat := 0
def policyContinue : Nat := 2
def policyLog : Nat := 4
def policySkipRollback : Nat := 8

/-! FlagType constants: `FlagAuto = 0`, `FlagString = 1`, `FlagBool = 2`,
`FlagInt64 = 3`, `FlagFloat64 = 4`, `FlagDuration = 5` (a `byte` in Go,
hence modelled as `Nat`: user code can hold an out-of-range value, which
the code reports as an unknown flag type). -/

def flagAuto : Nat := 0
def flagString : Nat := 1
def flagBool : Nat := 2
def flagInt64 : Nat := 3
def flagFloat64 : Nat := 4
def flagDuration : Nat := 5

/-- `FlagType.spaceValue`: every kind except boolean consumes the next
token as its value. -/
def spaceValue (t : Nat) : Bool :=
  if t = flagBool then false else true

/-- The `flagType` inference function, on non-pointer values
(`string`, `bool`, `int64`, `int32`, `int`, `float64`, `float32`,
`time.Duration` map to their kinds, anything else to `FlagAuto`). -/
def flagTypeOfVal : Val → Nat
  | .vStr _ => flagString
  | .vBool _ => flagBool
  | .vInt _ => flagInt64
  | .vInt32 _ => flagInt64
  | .vInt64 _ => flagInt64
  | .vFloat32 _ => flagFloat64
  | .vFloat64 _ => flagFloat64
  | .vDur _ => flagDuration
  | .vStrList _ => flagAuto

/-- The `flagType` inference function on bound pointer cells. -/
def flagTypeOfCell : VCell → Nat
  | .cStr _ => flagString
  | .cBool _ => flagBool
  | .cInt32 _ => flagInt64
  | .cInt _ => flagInt64
  | .cInt64 _ => flagInt64
  | .cFloat32 _ => flagFloat64
  | .cFloat64 _ => flagFloat64
  | .cDur _ => flagDuration

/-- A `Flag` declaration: name, optional environment fallback name,
usage text, optional bound external cell, optional default value,
declared kind. -/
structure FlagD where
  name : String
  env : String
  usage : String
  value : Option VCell
  default : Option Val
  type : Nat
deriving DecidableEq, Repr

/-- Go type name of a dynamic value, for `%T` in error messages. -/
def valTypeName : Val → String
  | .vStr _ => "string"
  | .vBool _ => "bool"
  | .vInt _ => "int"
  | .vInt32 _ => "int32"
  | .vInt64 _ => "int64"
  | .vFloat32 _ => "float32"
  | .vFloat64 _ => "float64"
  | .vDur _ => "time.Duration"
  | .vStrList _ => "[]string"

/-- Go `%v` rendering of a dynamic value.  Durations and floats are
rendered in a simplified form (Go's duration pretty-printer and float
formatter are not modelled; no claim inspects them). -/
def renderVal : Val → String
  | .vStr s => s
  | .vBool b => if b then "true" else "false"
  | .vInt n => toString n
  | .vInt32 n => toString n
  | .vInt64 n => toString n
  | .vFloat32 q => toString q
  | .vFloat64 q => toString q
  | .vDur n => toString n ++ "ns"
  | .vStrList ss => "[" ++ String.intercalate " " ss ++ "]"

/-- Go `%q` of a token (escaping of special characters inside the token
is not modelled; the claims' tokens are plain words). -/
def quoteS (s : String) : String := "\"" ++ s ++ "\""

/-- The message `fmt.Errorf("invalid default flag value %[1]v (%[1]T) for -%[2]s", fl.Default, fl.Name)`
(also emitted, verbatim with `fl.Default`, by the bound-value check). -/
def invalidDefaultErr (d : Option Val) (name : String) : GoErr :=
  .emsg ("invalid default flag value "
    ++ (match d with | some v => renderVal v | none => "<nil>")
    ++ " ("
    ++ (match d with | some v => valTypeName v | none => "<nil>")
    ++ ") for -" ++ name)

/-- Result of validating a declared default against the flag kind. -/
inductive ChkRes where
  | unknownType
  | bad
  | ok (d : Val)
deriving DecidableEq, Repr

/-- The `switch fl.Type` block of `flagStatus.init` validating
`fl.Default`: string/bool/duration must match exactly; `int32`/`int`
defaults are widened in place to `int64`, `float32` to `float64`;
any other kind value (including a still-`Auto` one) is an unknown
flag type. -/
def defaultCheck (t : Nat) (d : Val) : ChkRes :=
  if t = flagString then
    match d with | .vStr _ => .ok d | _ => .bad
  else if t = flagBool then
    match d with | .vBool _ => .ok d | _ => .bad
  else if t = flagInt64 then
    match d with
    | .vInt32 n => .ok (.vInt64 n)
    | .vInt n => .ok (.vInt64 n)
    | .vInt64 _ => .ok d
    | _ => .bad
  else if t = flagFloat64 then
    match d with
    | .vFloat32 q => .ok (.vFloat64 q)
    | .vFloat64 _ => .ok d
    | _ => .bad
  else if t = flagDuration then
    match d with | .vDur _ => .ok d | _ => .bad
  else .unknownType

/-- Result of validating a bound cell against the flag kind. -/
inductive ChkCellRes where
  | unknownType
  | bad
  | ok
deriving DecidableEq, Repr

/-- The `switch fl.Type` block of `flagStatus.init` validating
`fl.Value`.  The `FlagDuration` arm reproduces the source verbatim: it
type-asserts `fl.Default` (not `fl.Value`) against `*time.Duration`,
which a non-pointer default can never satisfy, so it always fails. -/
def valueCheck (t : Nat) (c : VCell) : ChkCellRes :=
  if t = flagString then
    match c with | .cStr _ => .ok | _ => .bad
  else if t = flagBool then
    match c with | .cBool _ => .ok | _ => .bad
  else if t = flagInt64 then
    match c with
    | .cInt32 _ => .ok
    | .cInt _ => .ok
    | .cInt64 _ => .ok
    | _ => .bad
  else if t = flagFloat64 then
    match c with
    | .cFloat32 _ => .ok
    | .cFloat64 _ => .ok
    | _ => .bad
  else if t = flagDuration then .bad
  else .unknownType

/-- Second half of `flagStatus.init`: validate the bound cell, if any. -/
def flagInitV (fl : FlagD) : FlagD × Option GoErr :=
  match fl.value with
  | none => (fl, none)
  | some c =>
    match valueCheck fl.type c with
    | .unknownType => (fl, some (.emsg ("unknown flag type " ++ toString fl.type)))
    | .bad => (fl, some (invalidDefaultErr fl.default fl.name))
    | .ok => (fl, none)

/-- First line of `flagStatus.init`: a still-`Auto` kind is inferred,
in place, from the bound cell's type. -/
def inferFromCell (fl0 : FlagD) : FlagD :=
  match fl0.type, fl0.value with
  | 0, some c => { fl0 with type := flagTypeOfCell c }
  | _, _ => fl0

/-- Second line of `flagStatus.init`: a still-`Auto` kind is inferred,
in place, from the default value's type. -/
def inferFromDefault (fl1 : FlagD) : FlagD :=
  match fl1.type, fl1.default with
  | 0, some d => { fl1 with type := flagTypeOfVal d }
  | _, _ => fl1

/-- Default-validation block of `flagStatus.init` (widening narrow
numeric defaults in place), followed by the bound-cell validation. -/
def flagInitD (fl2 : FlagD) : FlagD × Option GoErr :=
  match fl2.default with
  | none => flagInitV fl2
  | some d =>
    match defaultCheck fl2.type d with
    | .unknownType => (fl2, some (.emsg ("unknown flag type " ++ toString fl2.type)))
    | .bad => (fl2, some (invalidDefaultErr fl2.default fl2.name))
    | .ok d2 => flagInitV { fl2 with default := some d2 }

/-- `flagStatus.init`: infer a still-`Auto` kind from the bound cell,
else from the default; validate (and widen, in place) the default;
validate the bound cell.  The returned flag carries the in-place
mutations of `fl.Type` and `fl.Default` even when an error is
returned. -/
def flagInit (fl0 : FlagD) : FlagD × Option GoErr :=
  flagInitD (inferFromDefault (inferFromCell fl0))

/-! Ports of the Go standard-library parsers used by `flagStatus.set`. -/

/-- `strconv.ParseBool`: exactly these string forms are accepted. -/
def goParseBool (s : String) : Option Bool :=
  if s = "1" ∨ s = "t" ∨ s = "T" ∨ s = "TRUE" ∨ s = "true" ∨ s = "True" then some true
  else if s = "0" ∨ s = "f" ∨ s = "F" ∨ s = "FALSE" ∨ s = "false" ∨ s = "False" then some false
  else none

/-- Decimal digit run to a number; `none` on a non-digit or empty run. -/
def digitsToNat : List Char → Option Nat
  | [] => none
  | cs => go cs 0
where
  go : List Char → Nat → Option Nat
  | [], acc => some acc
  | c :: rest, acc =>
    if c.isDigit then go rest (acc * 10 + (c.toNat - '0'.toNat)) else none

/-- `strconv.ParseInt(s, 10, 64)`: optional sign, decimal digits, range
checked against `int64` (a range error makes `set` fail, so both syntax
and range errors collapse to `none`). -/
def goParseInt (s : String) : Option Int :=
  let cs := s.data
  let (neg, body) : Bool × List Char :=
    match cs with
    | '+' :: rest => (false, rest)
    | '-' :: rest => (true, rest)
    | _ => (false, cs)
  match digitsToNat body with
  | none => none
  | some m =>
    if neg then
      if m ≤ 2 ^ 63 then some (-(m : Int)) else none
    else
      if m ≤ 2 ^ 63 - 1 then some (m : Int) else none

/-- Partial model of `strconv.ParseFloat(s, 64)`: plain decimal
`[+-]?digits[.digits]` forms, as exact rationals (exponents, hex floats
and IEEE rounding are not modelled; no claim exercises floats). -/
def goParseFloat (s : String) : Option Rat :=
  let cs := s.data
  let (neg, body) : Bool × List Char :=
    match cs with
    | '+' :: rest => (false, rest)
    | '-' :: rest => (true, rest)
    | _ => (false, cs)
  match body.splitOn '.' with
  | [ip] =>
    (digitsToNat ip).map (fun m => if neg then -(m : Rat) else (m : Rat))
  | [ip, fp] =>
    match digitsToNat ip, digitsToNat fp with
    | some i, some f =>
      let q : Rat := (i : Rat) + (f : Rat) / ((10 : Rat) ^ fp.length)
      some (if neg then -q else q)
    | _, _ => none
  | _ => none

/-- Nanosecond multiplier of a `time.ParseDuration` unit. -/
def durUnit (u : List Char) : Option Int :=
  if u = ['n', 's'] then some 1
  else if u = ['u', 's'] then some 1000
  else if u = ['m', 's'] then some 1000000
  else if u = ['s'] then some 1000000000
  else if u = ['m'] then some 60000000000
  else if u = ['h'] then some 3600000000000
  else none

/-- Partial model of `time.ParseDuration`: an optional sign followed by
one or more integer-valued `number unit` groups (`ns`, `us`, `ms`, `s`,
`m`, `h`), plus the special form `"0"`; fractional numbers and the `µs`
spelling are not modelled (no claim exercises durations). -/
def goParseDuration (s : String) : Option Int :=
  if s = "0" then some 0
  else
    let cs := s.data
    let (neg, body) : Bool × List Char :=
      match cs with
      | '+' :: rest => (false, rest)
      | '-' :: rest => (true, rest)
      | _ => (false, cs)
    match body with
    | [] => none
    | _ => (groups body 0 (body.length + 1)).map (fun n => if neg then -n else n)
where
  groups : List Char → Int → Nat → Option Int
  | [], acc, _ => some acc
  | cs, acc, fuel + 1 =>
    let num := cs.takeWhile (·.isDigit)
    let rest := cs.dropWhile (·.isDigit)
    let u := rest.takeWhile (fun c => ¬c.isDigit)
    let rest2 := rest.dropWhile (fun c => ¬c.isDigit)
    match digitsToNat num, durUnit u with
    | some n, some mult => groups rest2 (acc + (n : Int) * mult) fuel
    | _, _ => none
  | _, _, 0 => none

/-- Transient per-parse bookkeeping for one flag (`flagStatus`):
the (shared, mutable) flag declaration, whether the flag was already
supplied, and whether that supply came from the environment. -/
structure FlagSt where
  flag : FlagD
  used : Bool
  env : Bool
deriving DecidableEq, Repr

instance : Inhabited FlagD := ⟨⟨"", "", "", none, none, 0⟩⟩

instance : Inhabited FlagSt := ⟨⟨default, false, false⟩⟩

/-- Two's-complement truncation to `int32`, for `*x = int32(v)`. -/
def int32wrap (v : Int) : Int :=
  (v + 2 ^ 31) % 2 ^ 32 - 2 ^ 31

/-- Write a parsed string through the bound cell, if it is a `*string`. -/
def cellWriteStr (fl : FlagD) (s : String) : FlagD :=
  match fl.value with
  | some (.cStr _) => { fl with value := some (.cStr s) }
  | _ => fl

/-- Write a parsed bool through the bound cell, if it is a `*bool`. -/
def cellWriteBool (fl : FlagD) (b : Bool) : FlagD :=
  match fl.value with
  | some (.cBool _) => { fl with value := some (.cBool b) }
  | _ => fl

/-- Write a parsed integer through the bound cell (`int32(v)` truncates;
`int` is 64-bit on the modelled platform). -/
def cellWriteInt (fl : FlagD) (v : Int) : FlagD :=
  match fl.value with
  | some (.cInt32 _) => { fl with value := some (.cInt32 (int32wrap v)) }
  | some (.cInt _) => { fl with value := some (.cInt v) }
  | some (.cInt64 _) => { fl with value := some (.cInt64 v) }
  | _ => fl

/-- Write a parsed float through the bound cell (the `float32`
narrowing of `*x = float32(v)` is not modelled). -/
def cellWriteFloat (fl : FlagD) (q : Rat) : FlagD :=
  match fl.value with
  | some (.cFloat32 _) => { fl with value := some (.cFloat32 q) }
  | some (.cFloat64 _) => { fl with value := some (.cFloat64 q) }
  | _ => fl

/-- Write a parsed duration through the bound cell. -/
def cellWriteDur (fl : FlagD) (v : Int) : FlagD :=
  match fl.value with
  | some (.cDur _) => { fl with value := some (.cDur v) }
  | _ => fl

/-- The re-supply error `fmt.Errorf("flag -%s already declared", fl.Name)`. -/
def alreadyDeclaredErr (name : String) : GoErr :=
  .emsg ("flag -" ++ name ++ " already declared")

/-- The kind switch of `flagStatus.set`, on the already-marked status:
parse `vs` according to the kind, writing the result through the bound
cell and into the bucket. -/
def flagSetGo (fs2 : FlagSt) (st : GoState) (vs : String) :
    FlagSt × GoState × Option GoErr :=
  if fs2.flag.type = flagAuto then
    (fs2, stSet st fs2.flag.name (.vStr vs), none)
  else if fs2.flag.type = flagString then
    ({ fs2 with flag := cellWriteStr fs2.flag vs }, stSet st fs2.flag.name (.vStr vs), none)
  else if fs2.flag.type = flagBool then
    if vs = "" then
      ({ fs2 with flag := cellWriteBool fs2.flag true },
        stSet st fs2.flag.name (.vBool true), none)
    else
      match goParseBool vs with
      | none => (fs2, st,
          some (.emsg ("strconv.ParseBool: parsing " ++ quoteS vs ++ ": invalid syntax")))
      | some b => ({ fs2 with flag := cellWriteBool fs2.flag b },
          stSet st fs2.flag.name (.vBool b), none)
  else if fs2.flag.type = flagInt64 then
    match goParseInt vs with
    | none => (fs2, st,
        some (.emsg ("strconv.ParseInt: parsing " ++ quoteS vs ++ ": invalid syntax")))
    | some v => ({ fs2 with flag := cellWriteInt fs2.flag v },
        stSet st fs2.flag.name (.vInt64 v), none)
  else if fs2.flag.type = flagFloat64 then
    match goParseFloat vs with
    | none => (fs2, st,
        some (.emsg ("strconv.ParseFloat: parsing " ++ quoteS vs ++ ": invalid syntax")))
    | some q => ({ fs2 with flag := cellWriteFloat fs2.flag q },
        stSet st fs2.flag.name (.vFloat64 q), none)
  else if fs2.flag.type = flagDuration then
    match goParseDuration vs with
    | none => (fs2, st, some (.emsg ("time: invalid duration " ++ quoteS vs)))
    | some v => ({ fs2 with flag := cellWriteDur fs2.flag v },
        stSet st fs2.flag.name (.vDur v), none)
  else
    (fs2, st, some (.emsg ("unknown flag type " ++ toString fs2.flag.type)))

/-- `flagStatus.set(st, vs, fromENV)`: reject a re-supplied flag unless
this is an explicit argument and the existing value was
environment-sourced; mark the flag used (and environment-sourced when
`fromENV`); then parse and record the value. -/
def flagSet (fs : FlagSt) (st : GoState) (vs : String) (fromENV : Bool) :
    FlagSt × GoState × Option GoErr :=
  if fs.used ∧ ¬(¬fromENV ∧ fs.env) then
    (fs, st, some (alreadyDeclaredErr fs.flag.name))
  else
    flagSetGo { fs with used := true, env := fs.env || fromENV } st vs

/-- `flagStatus.setDefault`: write the declared default (if any) into
the bucket. -/
def setDefault (fs : FlagSt) (st : GoState) : GoState :=
  match fs.flag.default with
  | none => st
  | some d => stSet st fs.flag.name d

mutual
/-- The `Action` language: `prim` is an arbitrary leaf action (its body
maps the state to a new state and an optional error, and its `id` is
recorded in the run's event log); `addA`, `rollbackA` and `deferA` are
actions that call `Script.Add`, `Script.Rollback` and `Script.Defer` on
the enclosing script and succeed (the library's `Defer`/`Rollback`
action constructors); `withPolicyA` is `WithPolicy`; `execA c args` is
the action returned by `c.Exec(args)`. -/
inductive ActionT where
  | prim (id : Nat) (f : GoState → GoState × Option GoErr)
  | addA (acts : List ActionT)
  | rollbackA (acts : List ActionT)
  | deferA (acts : List ActionT)
  | withPolicyA (p : Nat) (a : ActionT)
  | execA (c : Cmd) (args : List String)

/-- A `Command` tree node: name, usage text, flag declarations, child
commands, optional bound leaf action. -/
inductive Cmd where
  | mk (name : String) (usage : String) (flags : List FlagD)
       (commands : List Cmd) (action : Option ActionT)
end

def Cmd.name : Cmd → String
  | .mk n _ _ _ _ => n

def Cmd.usage : Cmd → String
  | .mk _ u _ _ _ => u

def Cmd.flags : Cmd → List FlagD
  | .mk _ _ fs _ _ => fs

def Cmd.commands : Cmd → List Cmd
  | .mk _ _ _ cs _ => cs

def Cmd.action : Cmd → Option ActionT
  | .mk _ _ _ _ a => a

/-- A `script` value: the execution cursor `at`, the growable action
list, and the lazily created rollback child script. -/
inductive Scr where
  | mk (cursor : Nat) (list : List ActionT) (rb : Option Scr)

def Scr.cursor : Scr → Nat
  | .mk c _ _ => c

def Scr.list : Scr → List ActionT
  | .mk _ l _ => l

def Scr.rb : Scr → Option Scr
  | .mk _ _ r => r

/-- `Script.Add`: append actions to the live list. -/
def Scr.add (sc : Scr) (acts : List ActionT) : Scr :=
  .mk sc.cursor (sc.list ++ acts) sc.rb

/-- Replace the cursor. -/
def Scr.withCursor (sc : Scr) (c : Nat) : Scr :=
  .mk c sc.list sc.rb

/-- Replace the rollback child. -/
def Scr.withRb (sc : Scr) (r : Option Scr) : Scr :=
  .mk sc.cursor sc.list r

/-- `Script.Rollback`: append actions to the lazily created rollback
child script. -/
def Scr.addRollback (sc : Scr) (acts : List ActionT) : Scr :=
  match sc.rb with
  | none => sc.withRb (some (.mk 0 acts none))
  | some r => sc.withRb (some (r.add acts))

/-- `Script.Defer`: append the same actions to both the rollback child
and the normal list. -/
def Scr.deferAdd (sc : Scr) (acts : List ActionT) : Scr :=
  (sc.addRollback acts).add acts

/-- The flag lines of `Command.helpError`'s usage message. -/
def renderFlags : List FlagD → String
  | [] => ""
  | fl :: rest =>
    "\t-" ++ fl.name
    ++ (if fl.env.length > 0 then " [" ++ fl.env ++ "]" else "")
    ++ (if fl.usage.length > 0 then " - " ++ fl.usage else "")
    ++ (match fl.default with
        | some d => " (" ++ renderVal d ++ ")"
        | none => "")
    ++ "\n" ++ renderFlags rest

/-- The child-command lines of `Command.helpError`'s usage message. -/
def renderCmds : List Cmd → String
  | [] => ""
  | sub :: rest =>
    "\t" ++ sub.name
    ++ (if sub.usage.length > 0 then " - " ++ sub.usage else "")
    ++ "\n" ++ renderCmds rest

/-- `Command.helpError`: the rendered multi-line usage message, tagged
as the distinguished `ErrUsage` error kind. -/
def helpError (c : Cmd) (firstLine : String) : GoErr :=
  .usage ((if firstLine.length > 0 then firstLine ++ "\n" else "")
    ++ c.name
    ++ (if c.usage.length > 0 then " - " ++ c.usage else "")
    ++ "\n"
    ++ renderFlags c.flags
    ++ "\n"
    ++ renderCmds c.commands)

/-- Split a character list at its first `=`, keeping the remainder
verbatim. -/
def splitEq : List Char → List Char × Option (List Char)
  | [] => ([], none)
  | c :: rest =>
    if c = '=' then ([], some rest)
    else
      let r := splitEq rest
      (c :: r.1, r.2)

/-- `strings.SplitN(s, "=", 2)`: split on the first `=` only. -/
def goSplitN2 (s : String) : List String :=
  match splitEq s.data with
  | (bs, none) => [String.mk bs]
  | (bs, some rest) => [String.mk bs, String.mk rest]

/-- First character of a non-empty token (`a[0]`; tokens are ASCII in
all modelled inputs, so byte and character indexing agree). -/
def strHead (s : String) : Char :=
  s.data.headD ' '

/-- `a[1:]`: the token without its leading flag marker. -/
def strTail (s : String) : String :=
  String.mk (s.data.drop 1)

/-- The `cmdLookup` map built from the node's children (later duplicate
names overwrite earlier ones, as Go map assignment does). -/
def buildCmdLookup (cs : List Cmd) : List (String × Cmd) :=
  match cs with
  | [] => []
  | c :: rest => buildCmdLookupGo (upsert c.name c []) rest
where
  buildCmdLookupGo (acc : List (String × Cmd)) : List Cmd → List (String × Cmd)
  | [] => acc
  | c :: rest => buildCmdLookupGo (upsert c.name c acc) rest

/-- The `flagLookup` map built from the processed flag statuses. -/
def buildLookup (p1 : List FlagSt) : List (String × FlagSt) :=
  match p1 with
  | [] => []
  | fs :: rest => buildLookupGo (upsert fs.flag.name fs []) rest
where
  buildLookupGo (acc : List (String × FlagSt)) : List FlagSt → List (String × FlagSt)
  | [] => acc
  | fs :: rest => buildLookupGo (upsert fs.flag.name fs acc) rest

/-- Result of the per-flag setup loop of `Command.Exec` (init every
flag, then pre-populate it from its environment fallback): either all
flags processed, or an abort part-way with the flags already mutated. -/
inductive InitOut where
  | ok (p1 : List FlagSt) (st : GoState)
  | err (p1 : List FlagSt) (remaining : List FlagD) (st : GoState) (e : GoErr)
deriving DecidableEq

/-- The environment pre-population step of `Command.Exec`'s setup loop:
when the flag declares an environment fallback that is present and
non-empty, supply the flag from it (`fs.set(st, v, true)`). -/
def envSupply (fs0 : FlagSt) (st : GoState) : FlagSt × GoState × Option GoErr :=
  if fs0.flag.env.length > 0 then
    match envGet st.Env fs0.flag.env with
    | some v => if v.length > 0 then flagSet fs0 st v true else (fs0, st, none)
    | none => (fs0, st, none)
  else (fs0, st, none)

/-- The per-flag setup loop of `Command.Exec`: run `flagStatus.init` on
each flag (aborting on its error), then pre-populate it from its
environment fallback (aborting on that error). -/
def initFlags : List FlagD → GoState → InitOut
  | [], st => .ok [] st
  | fl :: rest, st =>
    match flagInit fl with
    | (fl2, some e) => .err [⟨fl2, false, false⟩] rest st e
    | (fl2, none) =>
      match envSupply ⟨fl2, false, false⟩ st with
      | (fs, st2, some e) => .err [fs] rest st2 e
      | (fs, st2, none) =>
        match initFlags rest st2 with
        | .ok p1 st3 => .ok (fs :: p1) st3
        | .err p1 rem st3 e => .err (fs :: p1) rem st3 e

/-- Apply declared defaults to every not-yet-used flag (the
`for _, fs := range flagLookup` loops; Go's iteration order is random,
but each default writes its own distinct bucket key, so insertion order
is an equivalent model). -/
def applyDefaults : List (String × FlagSt) → GoState → GoState
  | [], st => st
  | (_, fs) :: rest, st =>
    applyDefaults rest (if fs.used then st else setDefault fs st)

/-- Outcome of the argument-consuming loop of `Command.Exec`:
`done` is a loop exit by `break` or by exhausting the arguments (the
post-loop section still runs); `ret` is a `return` from inside the loop
carrying the actions appended to the live script and the error. -/
inductive POut where
  | done (lookup : List (String × FlagSt)) (nextFlag : Option String) (st : GoState)
  | ret (lookup : List (String × FlagSt)) (st : GoState)
        (appends : List ActionT) (e : Option GoErr)

/-- The argument-consuming loop of `Command.Exec`.  `c` is the node
(used for usage messages), `cmdL` the child lookup, `lookup` the flag
lookup, `nextFlag` the name of a flag awaiting its value token.
`nextFlag`, when set, always names a `lookup` key (it is only ever set
from a successful lookup); the `getD` fallback is unreachable. -/
def parseLoop (c : Cmd) (cmdL : List (String × Cmd)) :
    List (String × FlagSt) → Option String → GoState → List String → POut
  | lookup, nextFlag, st, [] => .done lookup nextFlag st
  | lookup, nextFlag, st, a :: args =>
    match nextFlag with
    | some nf =>
      let fs := (alistGet lookup nf).getD default
      match flagSet fs st a false with
      | (fs2, st2, some e) => .ret (upsert nf fs2 lookup) st2 [] (some e)
      | (fs2, st2, none) =>
        parseLoop c cmdL (upsert nf { fs2 with used := true } lookup) none st2 args
    | none =>
      if a.length = 0 then
        parseLoop c cmdL lookup none st args
      else if strHead a ≠ '-' then
        if cmdL.length = 0 then
          .done lookup none (stSet st "args" (.vStrList (a :: args)))
        else
          let st2 := applyDefaults lookup st
          match alistGet cmdL a with
          | none => .ret lookup st2 [] (some (helpError c ("invalid command " ++ quoteS a)))
          | some cmd => .ret lookup st2 [.execA cmd args] none
      else
        let a1 := strTail a
        if a1 = "-" then
          .done lookup none (stSet st "args" (.vStrList args))
        else
          let nv := goSplitN2 a1
          let nm := nv.headD ""
          match alistGet lookup nm with
          | none => .ret lookup st [] (some (helpError c ("invalid flag -" ++ nm)))
          | some fs =>
            match nv with
            | [_] =>
              if spaceValue fs.flag.type then
                parseLoop c cmdL lookup (some nm) st args
              else
                match flagSet fs st "" false with
                | (fs2, st2, some e) => .ret (upsert nm fs2 lookup) st2 [] (some e)
                | (fs2, st2, none) => parseLoop c cmdL (upsert nm fs2 lookup) none st2 args
            | _ :: v :: _ =>
              match flagSet fs st v false with
              | (fs2, st2, some e) => .ret (upsert nm fs2 lookup) st2 [] (some e)
              | (fs2, st2, none) => parseLoop c cmdL (upsert nm fs2 lookup) none st2 args
            | [] =>
              match flagSet fs st "" false with
              | (fs2, st2, some e) => .ret (upsert nm fs2 lookup) st2 [] (some e)
              | (fs2, st2, none) => parseLoop c cmdL (upsert nm fs2 lookup) none st2 args

/-- Rebuild the node's flag list after a parse: each declaration is the
(shared, mutated) `flagStatus.flag`; a flag name's `flagLookup` entry
aliases the last declaration with that name, so earlier duplicates keep
only their own setup-phase mutations. -/
def rebuildFlags : List FlagSt → List (String × FlagSt) → List FlagD
  | [], _ => []
  | fs :: rest, lookup =>
    (if rest.any (fun x => x.flag.name = fs.flag.name) then fs.flag
     else (((alistGet lookup fs.flag.name).map (fun x => x.flag)).getD fs.flag))
    :: rebuildFlags rest lookup

/-- The command node as it stands after the per-flag setup phase: the
same node with its flag declarations replaced by their (init-mutated,
possibly environment-supplied) versions. -/
def execTree (c : Cmd) (p1 : List FlagSt) : Cmd :=
  .mk c.name c.usage (p1.map (fun fs => fs.flag)) c.commands c.action

/-- Result of one run of the action returned by `Command.Exec` (with a
non-nil enclosing script): the mutated state, the actions appended to
the live script, the command tree as mutated in place by the run, and
the returned error. -/
structure ExecOut where
  st : GoState
  appends : List ActionT
  tree : Cmd
  e : Option GoErr

/-- The body of the closure returned by `Command.Exec`, after its
nil-script guard: build the lookups, init every flag and pre-populate
it from the environment, consume the argument vector, apply remaining
defaults, reject a dangling value-expecting flag, and append the bound
action (or the matched child's own `Exec`) to the live script. -/
def execCore (c : Cmd) (args : List String) (st : GoState) : ExecOut :=
  let cmdL := buildCmdLookup c.commands
  match initFlags c.flags st with
  | .err p1 rem st2 e =>
    { st := st2, appends := [],
      tree := .mk c.name c.usage (p1.map (fun fs => fs.flag) ++ rem) c.commands c.action,
      e := some e }
  | .ok p1 st2 =>
    let lookup := buildLookup p1
    match parseLoop (execTree c p1) cmdL lookup none st2 args with
    | .ret lookup2 st3 appends e =>
      { st := st3, appends := appends,
        tree := .mk c.name c.usage (rebuildFlags p1 lookup2) c.commands c.action,
        e := e }
    | .done lookup2 nextFlag st3 =>
      let st4 := applyDefaults lookup2 st3
      let tree : Cmd := .mk c.name c.usage (rebuildFlags p1 lookup2) c.commands c.action
      match nextFlag with
      | some nf =>
        { st := st4, appends := [], tree := tree,
          e := some (.emsg ("expected value after flag " ++ quoteS nf)) }
      | none =>
        match c.action with
        | none =>
          { st := st4, appends := [], tree := tree,
            e := some (helpError tree "incorrect command") }
        | some act =>
          { st := st4, appends := [act], tree := tree, e := none }

/-- A cancellation token: `ctx n` tells whether the token has fired at
the `n`-th cancellation poll of the run (`RunAction` performs exactly
one non-blocking poll per invocation; the poll counter is the run's
logical time). -/
def Ctx : Type := Nat → Bool

/-- `context.Background()`: a token that never fires. -/
def ctxBackground : Ctx := fun _ => false

/-- A run's threaded bookkeeping: the shared `State`, the poll counter,
and the event log recording each executed `prim` action's id in
order. -/
structure RunSt where
  st : GoState
  clock : Nat
  log : List Nat

mutual
/-- `script.RunAction(ctx, st, a)` on a non-nil script: poll the
cancellation token (returning `context.Canceled` without invoking the
action if it has fired), invoke the action, and on failure apply the
policy bits — log under `PolicyLog`, suppress under `PolicyContinue`,
return early under `PolicySkipRollback`, otherwise run the rollback
child under a fresh background token and combine a rollback failure
with the triggering error. -/
def runAction : Nat → Ctx → RunSt → Scr → ActionT → RunSt × Scr × Option GoErr
  | 0, _, w, sc, _ => (w, sc, some .outOfFuel)
  | fuel + 1, ctx, w, sc, a =>
    if ctx w.clock then ({ w with clock := w.clock + 1 }, sc, some .canceled)
    else
      let w := { w with clock := w.clock + 1 }
      let (w, scO, e) := runDispatch fuel ctx w (some sc) a
      let sc := scO.getD sc
      match e with
      | none => (w, sc, none)
      | some e =>
        let w := if w.st.Policy &&& policyLog ≠ 0 then { w with st := stError w.st e } else w
        let e2 : Option GoErr := if w.st.Policy &&& policyContinue ≠ 0 then none else some e
        if w.st.Policy &&& policySkipRollback ≠ 0 then (w, sc, e2)
        else
          match e2 with
          | none => (w, sc, none)
          | some e2 =>
            let (w, rbO, rberr) := runScript fuel ctxBackground w sc.rb
            let sc := sc.withRb rbO
            match rberr with
            | none => (w, sc, some e2)
            | some re => (w, sc, some (.rollbackFailed e2 re))

/-- The dynamic dispatch `a.Run(ctx, st, sc)`.  The script argument may
be the nil interface (as when an `Exec` action is invoked outside any
script); the structural actions then fault where Go would panic, and
`execA`'s own guard returns its "missing Script" error. -/
def runDispatch : Nat → Ctx → RunSt → Option Scr → ActionT → RunSt × Option Scr × Option GoErr
  | 0, _, w, scO, _ => (w, scO, some .outOfFuel)
  | fuel + 1, ctx, w, scO, a =>
    match a with
    | .prim id f =>
      let (st2, e) := f w.st
      ({ w with st := st2, log := w.log ++ [id] }, scO, e)
    | .addA acts =>
      match scO with
      | none => (w, none, some .nilScriptFault)
      | some sc => (w, some (sc.add acts), none)
    | .rollbackA acts =>
      match scO with
      | none => (w, none, some .nilScriptFault)
      | some sc => (w, some (sc.addRollback acts), none)
    | .deferA acts =>
      match scO with
      | none => (w, none, some .nilScriptFault)
      | some sc => (w, some (sc.deferAdd acts), none)
    | .withPolicyA p a =>
      match scO with
      | none => (w, none, some .nilScriptFault)
      | some sc =>
        let orig := w.st.Policy
        let w := { w with st := { w.st with Policy := p } }
        let (w, sc2, e) := runAction fuel ctx w sc a
        ({ w with st := { w.st with Policy := orig } }, some sc2, e)
    | .execA c args =>
      match scO with
      | none => (w, none, some (.emsg "missing Script"))
      | some sc =>
        let r := execCore c args w.st
        ({ w with st := r.st }, some (sc.add r.appends), r.e)

/-- `script.runNext`: return `io.EOF` at the (possibly grown) end of
the list, else advance the cursor and run the action at it. -/
def runNext : Nat → Ctx → RunSt → Scr → RunSt × Scr × Option GoErr
  | 0, _, w, sc => (w, sc, some .outOfFuel)
  | fuel + 1, ctx, w, sc =>
    if sc.list.length ≤ sc.cursor then (w, sc, some .eofE)
    else
      let a := sc.list.getD sc.cursor (.addA [])
      runAction fuel ctx w (sc.withCursor (sc.cursor + 1)) a

/-- `script.Run(ctx, st, parent)` (the parent is ignored): on a nil
script return nil, else repeatedly `runNext`, stopping cleanly on
`io.EOF` and propagating the first other error. -/
def runScript : Nat → Ctx → RunSt → Option Scr → RunSt × Option Scr × Option GoErr
  | 0, _, w, scO => (w, scO, some .outOfFuel)
  | fuel + 1, ctx, w, scO =>
    match scO with
    | none => (w, none, none)
    | some sc =>
      let (w, sc, e) := runNext fuel ctx w sc
      match e with
      | some .eofE => (w, some sc, none)
      | some e => (w, some sc, some e)
      | none => runScript fuel ctx w (some sc)
end

/-- The package-level `Run(ctx, st, a)` entry point: create a script
holding `a` (`NewScript`) and run it. -/
def taskRun (fuel : Nat) (ctx : Ctx) (w : RunSt) (a : ActionT) :
    RunSt × Option Scr × Option GoErr :=
  runScript fuel ctx w (some (.mk 0 [a] none))

/-! Generic machinery for stating the engine claims: a `Prim` is the
id/body pair of a leaf action; `OkPrim` describes a body that always
succeeds and leaves the policy byte untouched. -/

abbrev Prim := Nat × (GoState → GoState × Option GoErr)

/-- The leaf action of a `Prim`. -/
def mkPrim (p : Prim) : ActionT := .prim p.1 p.2

/-- A leaf body that succeeds on every state and preserves the policy
byte. -/
def OkPrim (p : Prim) : Prop :=
  ∀ st, ((p.2 st).1.Policy = st.Policy) ∧ (p.2 st).2 = none

/-- The ids of a block of leaf actions, in order. -/
def primIds (ps : List Prim) : List Nat := ps.map (fun p => p.1)

lemma runSt_ext (a b : RunSt) (h1 : a.st = b.st) (h2 : a.clock = b.clock)
    (h3 : a.log = b.log) : a = b := by
  cases a; cases b; simp_all

/-- The rollback child's action list (empty when the child was never
created). -/
def rbList (sc : Scr) : List ActionT :=
  match sc.rb with
  | none => []
  | some r => r.list

lemma runScript_noneScr (k : Nat) (ctx : Ctx) (w : RunSt) :
    runScript (k + 1) ctx w none = (w, none, none) := rfl

/-- The run bookkeeping right after a leaf action with body result
`(st2, some e)` has failed and the `Log` policy bit has been applied:
the body's state (with the error reported when `Log` is set), the
ticked poll counter, and the id appended to the event log. -/
def failState (w : RunSt) (i : Nat) (st2 : GoState) (e : GoErr) : RunSt :=
  if st2.Policy &&& policyLog ≠ 0 then
    { w with st := stError st2 e, clock := w.clock + 1, log := w.log ++ [i] }
  else
    { w with st := st2, clock := w.clock + 1, log := w.log ++ [i] }

/-- A successful leaf action: `RunAction` polls, runs the body, logs the
id, and returns success immediately. -/
lemma runAction_prim_ok (k : Nat) (ctx : Ctx) (w : RunSt) (sc : Scr)
    (i : Nat) (f : GoState → GoState × Option GoErr)
    (hctx : ctx w.clock = false)
    (hok : (f w.st).2 = none) :
    runAction (k + 2) ctx w sc (.prim i f) =
      ({ w with st := (f w.st).1, clock := w.clock + 1, log := w.log ++ [i] }, sc, none) := by
  obtain ⟨st2, hfw⟩ : ∃ st2, f w.st = (st2, none) := ⟨(f w.st).1, by rw [← hok]⟩
  rw [runAction]
  simp only [hctx, Bool.false_eq_true, if_false]
  rw [runDispatch]
  simp [hfw]

/-- `Script.Add` through the engine: the action list grows, nothing
else happens. -/
lemma runAction_addA (k : Nat) (ctx : Ctx) (w : RunSt) (sc : Scr) (acts : List ActionT)
    (hctx : ctx w.clock = false) :
    runAction (k + 2) ctx w sc (.addA acts) =
      ({ w with clock := w.clock + 1 }, sc.add acts, none) := by
  rw [runAction]
  simp only [hctx, Bool.false_eq_true, if_false]
  rw [runDispatch]
  simp

/-- `Script.Rollback` through the engine. -/
lemma runAction_rollbackA (k : Nat) (ctx : Ctx) (w : RunSt) (sc : Scr) (acts : List ActionT)
    (hctx : ctx w.clock = false) :
    runAction (k + 2) ctx w sc (.rollbackA acts) =
      ({ w with clock := w.clock + 1 }, sc.addRollback acts, none) := by
  rw [runAction]
  simp only [hctx, Bool.false_eq_true, if_false]
  rw [runDispatch]
  simp

/-- `Script.Defer` through the engine. -/
lemma runAction_deferA (k : Nat) (ctx : Ctx) (w : RunSt) (sc : Scr) (acts : List ActionT)
    (hctx : ctx w.clock = false) :
    runAction (k + 2) ctx w sc (.deferA acts) =
      ({ w with clock := w.clock + 1 }, sc.deferAdd acts, none) := by
  rw [runAction]
  simp only [hctx, Bool.false_eq_true, if_false]
  rw [runDispatch]
  simp

/-- A failing leaf action under a policy whose `Continue` bit is set in
the post-action state: the error is suppressed and no rollback runs,
whatever the `Log` and `SkipRollback` bits say (the `Log` bit only adds
the error to the error logger). -/
lemma runAction_prim_fail_continue (k : Nat) (ctx : Ctx) (w : RunSt) (sc : Scr)
    (i : Nat) (f : GoState → GoState × Option GoErr) (e : GoErr)
    (hctx : ctx w.clock = false)
    (hfail : (f w.st).2 = some e)
    (hcont : (f w.st).1.Policy &&& policyContinue ≠ 0) :
    runAction (k + 2) ctx w sc (.prim i f) =
      (failState w i (f w.st).1 e, sc, none) := by
  obtain ⟨st2, hfw⟩ : ∃ st2, f w.st = (st2, some e) := ⟨(f w.st).1, by rw [← hfail]⟩
  rw [hfw] at hcont ⊢
  simp only at hcont
  rw [runAction]
  simp only [hctx, Bool.false_eq_true, if_false]
  rw [runDispatch]
  simp only [hfw, failState, stError]
  by_cases hlog : st2.Policy &&& policyLog ≠ 0 <;>
    by_cases hskip : st2.Policy &&& policySkipRollback ≠ 0 <;>
      simp [hlog, hskip, hcont, stError]

/-- A failing leaf action with `Continue` and `SkipRollback` clear:
the rollback child runs under the background token, and its outcome
decides whether the original error or the combined report returns. -/
lemma runAction_prim_fail_rollback (k : Nat) (ctx : Ctx) (w : RunSt) (sc : Scr)
    (i : Nat) (f : GoState → GoState × Option GoErr) (e : GoErr)
    (w2 : RunSt) (rbO : Option Scr)
    (hctx : ctx w.clock = false)
    (hfail : (f w.st).2 = some e)
    (hcont : (f w.st).1.Policy &&& policyContinue = 0)
    (hskip : (f w.st).1.Policy &&& policySkipRollback = 0)
    (hrb : runScript (k + 1) ctxBackground (failState w i (f w.st).1 e) sc.rb =
        (w2, rbO, none)) :
    runAction (k + 2) ctx w sc (.prim i f) = (w2, sc.withRb rbO, some e) := by
  obtain ⟨st2, hfw⟩ : ∃ st2, f w.st = (st2, some e) := ⟨(f w.st).1, by rw [← hfail]⟩
  rw [hfw] at hcont hskip hrb
  simp only at hcont hskip
  rw [runAction]
  simp only [hctx, Bool.false_eq_true, if_false]
  rw [runDispatch]
  simp only [hfw, failState, stError] at hrb ⊢
  by_cases hlog : st2.Policy &&& policyLog ≠ 0 <;>
    simp only [hlog, hcont, hskip, ne_eq, not_false_eq_true, ite_false, ite_true,
      if_true, if_false] at hrb ⊢ <;>
    simp only [Option.getD_some] <;>
    rw [hrb] <;> simp

/-- As `runAction_prim_fail_rollback`, when the rollback run itself
fails: the triggering and rollback errors are combined. -/
lemma runAction_prim_fail_rollback_err (k : Nat) (ctx : Ctx) (w : RunSt) (sc : Scr)
    (i : Nat) (f : GoState → GoState × Option GoErr) (e : GoErr)
    (w2 : RunSt) (rbO : Option Scr) (re : GoErr)
    (hctx : ctx w.clock = false)
    (hfail : (f w.st).2 = some e)
    (hcont : (f w.st).1.Policy &&& policyContinue = 0)
    (hskip : (f w.st).1.Policy &&& policySkipRollback = 0)
    (hrb : runScript (k + 1) ctxBackground (failState w i (f w.st).1 e) sc.rb =
        (w2, rbO, some re)) :
    runAction (k + 2) ctx w sc (.prim i f) =
      (w2, sc.withRb rbO, some (.rollbackFailed e re)) := by
  obtain ⟨st2, hfw⟩ : ∃ st2, f w.st = (st2, some e) := ⟨(f w.st).1, by rw [← hfail]⟩
  rw [hfw] at hcont hskip hrb
  simp only at hcont hskip
  rw [runAction]
  simp only [hctx, Bool.false_eq_true, if_false]
  rw [runDispatch]
  simp only [hfw, failState, stError] at hrb ⊢
  by_cases hlog : st2.Policy &&& policyLog ≠ 0 <;>
    simp only [hlog, hcont, hskip, ne_eq, not_false_eq_true, ite_false, ite_true,
      if_true, if_false] at hrb ⊢ <;>
    simp only [Option.getD_some] <;>
    rw [hrb] <;> simp

/-- One `Run` loop iteration whose action succeeds: the loop
continues. -/
lemma runScript_step (k : Nat) (ctx : Ctx) (w : RunSt) (cur : Nat)
    (l : List ActionT) (rb : Option Scr) (a : ActionT) (w2 : RunSt) (sc2 : Scr)
    (hcur : cur < l.length)
    (hget : l.getD cur (.addA []) = a)
    (hra : runAction (k + 2) ctx w (.mk (cur + 1) l rb) a = (w2, sc2, none)) :
    runScript (k + 4) ctx w (some (.mk cur l rb)) =
      runScript (k + 3) ctx w2 (some sc2) := by
  rw [runScript, runNext]
  simp only [Scr.list, Scr.cursor, Scr.withCursor, Scr.rb]
  rw [if_neg (Nat.not_le.mpr hcur), hget, hra]

/-- One `Run` loop iteration whose action fails with a non-`io.EOF`
error: the loop aborts, propagating the error. -/
lemma runScript_step_err (k : Nat) (ctx : Ctx) (w : RunSt) (cur : Nat)
    (l : List ActionT) (rb : Option Scr) (a : ActionT) (w2 : RunSt) (sc2 : Scr) (e : GoErr)
    (hcur : cur < l.length)
    (hget : l.getD cur (.addA []) = a)
    (hra : runAction (k + 2) ctx w (.mk (cur + 1) l rb) a = (w2, sc2, some e))
    (hne : e ≠ .eofE) :
    runScript (k + 4) ctx w (some (.mk cur l rb)) = (w2, some sc2, some e) := by
  rw [runScript, runNext]
  simp only [Scr.list, Scr.cursor, Scr.withCursor, Scr.rb]
  rw [if_neg (Nat.not_le.mpr hcur), hget, hra]
  cases e <;> first
    | exact absurd rfl hne
    | simp

/-- The `Run` loop at the (possibly grown) end of the list: the
internal `io.EOF` becomes a clean stop. -/
lemma runScript_end (k : Nat) (ctx : Ctx) (w : RunSt) (cur : Nat)
    (l : List ActionT) (rb : Option Scr)
    (hcur : l.length ≤ cur) :
    runScript (k + 2) ctx w (some (.mk cur l rb)) = (w, some (.mk cur l rb), none) := by
  rw [runScript, runNext]
  simp only [Scr.list, Scr.cursor]
  rw [if_pos hcur]

/-- Running a block of succeeding, policy-preserving leaf actions
advances the cursor past the block, appends exactly their ids to the
event log in order, ticks the poll counter once per action, preserves
the policy byte, and touches neither the list nor the rollback
child. -/
lemma runScript_okSeg (ps : List Prim) :
    ∀ (k : Nat) (ctx : Ctx) (w : RunSt) (cur : Nat) (l : List ActionT)
      (rb : Option Scr) (rest : List ActionT),
    (∀ p ∈ ps, OkPrim p) →
    l.drop cur = ps.map mkPrim ++ rest →
    (∀ n, n < w.clock + ps.length → ctx n = false) →
    ∃ stF, stF.Policy = w.st.Policy ∧
      runScript (k + ps.length + 4) ctx w (some (.mk cur l rb)) =
        runScript (k + 4) ctx ⟨stF, w.clock + ps.length, w.log ++ primIds ps⟩
          (some (.mk (cur + ps.length) l rb)) := by
  induction ps with
  | nil =>
    intro k ctx w cur l rb rest hok hdrop hctx
    exact ⟨w.st, rfl, by simp [primIds]⟩
  | cons p ps ih =>
    intro k ctx w cur l rb rest hok hdrop hctx
    have hlen : (l.drop cur).length = ps.length + 1 + rest.length := by
      rw [hdrop]; simp [Nat.add_comm, Nat.add_assoc, Nat.add_left_comm]
    have hcur : cur < l.length := by
      rw [List.length_drop] at hlen; omega
    have hdc : l.drop cur = l[cur] :: l.drop (cur + 1) :=
      List.drop_eq_getElem_cons hcur
    rw [hdc, List.map_cons] at hdrop
    have hpair := List.cons_eq_cons.mp hdrop
    have hhead : l[cur] = mkPrim p := hpair.1
    have hget : l.getD cur (.addA []) = mkPrim p := by
      rw [List.getD_eq_getElem _ _ hcur, hhead]
    have hdrop2 : l.drop (cur + 1) = ps.map mkPrim ++ rest := hpair.2
    have hokp := hok p (List.mem_cons_self p ps)
    have hctx0 : ctx w.clock = false := hctx w.clock (by simp)
    have hstep := runScript_step (k + ps.length + 1) ctx w cur l rb (mkPrim p)
      ({ w with st := (p.2 w.st).1, clock := w.clock + 1, log := w.log ++ [p.1] })
      (.mk (cur + 1) l rb) hcur hget
      (runAction_prim_ok (k + ps.length + 1) ctx w (.mk (cur + 1) l rb) p.1 p.2 hctx0
        (hokp w.st).2)
    obtain ⟨stF, hpol, hrun⟩ := ih k ctx
      ({ w with st := (p.2 w.st).1, clock := w.clock + 1, log := w.log ++ [p.1] })
      (cur + 1) l rb rest (fun q hq => hok q (List.mem_cons_of_mem p hq)) hdrop2
      (by intro n hn; exact hctx n (by simp at hn ⊢; omega))
    refine ⟨stF, ?_, ?_⟩
    · rw [hpol]; exact (hokp w.st).1
    · have harith : k + (p :: ps).length + 4 = (k + ps.length + 1) + 4 := by
        simp; omega
      rw [harith, hstep, hrun]
      simp [primIds, Nat.add_assoc, Nat.add_comm, Nat.add_left_comm, List.append_assoc]

/-- Running a script whose remaining actions are exactly a block of
succeeding, policy-preserving leaf actions: the run completes cleanly
having executed each of them once, in order. -/
lemma runScript_okRun (ps : List Prim) (k : Nat) (ctx : Ctx) (w : RunSt)
    (cur : Nat) (l : List ActionT) (rb : Option Scr)
    (hok : ∀ p ∈ ps, OkPrim p)
    (hdrop : l.drop cur = ps.map mkPrim)
    (hctx : ∀ n, n < w.clock + ps.length → ctx n = false) :
    ∃ stF, stF.Policy = w.st.Policy ∧
      runScript (k + ps.length + 4) ctx w (some (.mk cur l rb)) =
        (⟨stF, w.clock + ps.length, w.log ++ primIds ps⟩,
          some (.mk (cur + ps.length) l rb), none) := by
  obtain ⟨stF, hpol, hrun⟩ := runScript_okSeg ps k ctx w cur l rb []
    hok (by simpa using hdrop) hctx
  refine ⟨stF, hpol, ?_⟩
  have hend : l.length ≤ cur + ps.length := by
    have := congrArg List.length hdrop
    simp [List.length_drop] at this
    omega
  rw [hrun]
  have : k + 4 = (k + 2) + 2 := by omega
  rw [this, runScript_end (k + 2) ctx _ _ l rb hend]

/-- An optionally registered rollback sequence, as the engine stores it
before any rollback ran. -/
def rbInit (rbo : Option (List Prim)) : Option Scr :=
  rbo.map (fun ps => Scr.mk 0 (ps.map mkPrim) none)

/-- The same rollback child after its run: cursor at the end. -/
def rbFinal (rbo : Option (List Prim)) : Option Scr :=
  rbo.map (fun ps => Scr.mk ps.length (ps.map mkPrim) none)

/-- The ids of the optionally registered rollback actions. -/
def rbIds (rbo : Option (List Prim)) : List Nat := primIds (rbo.getD [])

/-- The length of the optionally registered rollback sequence. -/
def rbLen (rbo : Option (List Prim)) : Nat := (rbo.getD []).length

lemma failState_clock (w : RunSt) (i : Nat) (st2 : GoState) (e : GoErr) :
    (failState w i st2 e).clock = w.clock + 1 := by
  unfold failState; split <;> rfl

lemma failState_log (w : RunSt) (i : Nat) (st2 : GoState) (e : GoErr) :
    (failState w i st2 e).log = w.log ++ [i] := by
  unfold failState; split <;> rfl

lemma failState_policy (w : RunSt) (i : Nat) (st2 : GoState) (e : GoErr) :
    (failState w i st2 e).st.Policy = st2.Policy := by
  unfold failState; split <;> simp [stError]

/-- The heart of the fail-fast/rollback behavior: a run positioned
before a block of succeeding leaf actions followed by a failing one,
under a policy with `Continue` and `SkipRollback` clear, executes the
block, executes the failing action, runs every registered rollback
action exactly once in order under the background token, returns the
failing action's error, and never reaches anything positioned after the
failing action. -/
lemma runScript_failRun (pre : List Prim) (b : Prim) (e : GoErr) (post : List ActionT)
    (rbo : Option (List Prim)) (k : Nat) (ctx : Ctx) (w : RunSt) (cur : Nat)
    (l : List ActionT)
    (hl : l.drop cur = pre.map mkPrim ++ mkPrim b :: post)
    (hpre : ∀ p ∈ pre, OkPrim p)
    (hbf : ∀ st, (b.2 st).2 = some e)
    (hbp : ∀ st, ((b.2 st).1).Policy = st.Policy)
    (hne : e ≠ .eofE)
    (hp2 : w.st.Policy &&& policyContinue = 0)
    (hp8 : w.st.Policy &&& policySkipRollback = 0)
    (hrb : ∀ ps, rbo = some ps → ∀ p ∈ ps, OkPrim p)
    (hctx : ∀ n, n ≤ w.clock + pre.length → ctx n = false) :
    ∃ stF,
      runScript (k + pre.length + rbLen rbo + 9) ctx w (some (.mk cur l (rbInit rbo))) =
        (⟨stF, w.clock + pre.length + 1 + rbLen rbo,
            w.log ++ primIds pre ++ [b.1] ++ rbIds rbo⟩,
          some (.mk (cur + pre.length + 1) l (rbFinal rbo)), some e) := by
  have harith : k + pre.length + rbLen rbo + 9 = (k + rbLen rbo + 5) + pre.length + 4 := by
    omega
  rw [harith]
  obtain ⟨st1, hpol1, hseg⟩ := runScript_okSeg pre (k + rbLen rbo + 5) ctx w cur l
    (rbInit rbo) (mkPrim b :: post) hpre hl
    (fun n hn => hctx n (by omega))
  rw [hseg]
  set w1 : RunSt := ⟨st1, w.clock + pre.length, w.log ++ primIds pre⟩ with hw1
  have hcur2 : cur + pre.length < l.length := by
    have := congrArg List.length hl
    simp [List.length_drop] at this
    omega
  have hdrop2 : l.drop (cur + pre.length) = mkPrim b :: post := by
    have h1 : (l.drop cur).drop pre.length = l.drop (cur + pre.length) :=
      List.drop_drop pre.length cur l
    rw [hl] at h1
    rw [List.drop_left' (by simp)] at h1
    exact h1.symm
  have hget2 : l.getD (cur + pre.length) (.addA []) = mkPrim b := by
    have hdc : l.drop (cur + pre.length) = l[cur + pre.length] :: l.drop (cur + pre.length + 1) :=
      List.drop_eq_getElem_cons hcur2
    rw [List.getD_eq_getElem _ _ hcur2]
    exact (List.cons_eq_cons.mp (hdc.symm.trans hdrop2)).1
  have hctx1 : ctx w1.clock = false := hctx (w.clock + pre.length) (by omega)
  have hbfp : ((b.2 w1.st).1).Policy = w.st.Policy := by
    rw [hbp w1.st]; exact hpol1
  -- the rollback run, under the background token
  cases rbo with
  | none =>
    have hrbn : (Scr.mk (cur + pre.length + 1) l (rbInit none)).rb = none := by
      simp [Scr.rb, rbInit]
    have hfail := runAction_prim_fail_rollback (k + rbLen none + 5) ctx w1
      (.mk (cur + pre.length + 1) l (rbInit none)) b.1 b.2 e
      (failState w1 b.1 (b.2 w1.st).1 e) none
      hctx1 (hbf w1.st) (by rw [hbfp]; exact hp2) (by rw [hbfp]; exact hp8)
      (by rw [hrbn]; exact runScript_noneScr _ ctxBackground _)
    have hstep := runScript_step_err (k + rbLen none + 5) ctx w1 (cur + pre.length) l
      (rbInit none) (mkPrim b) (failState w1 b.1 (b.2 w1.st).1 e)
      ((Scr.mk (cur + pre.length + 1) l (rbInit none)).withRb none) e hcur2 hget2 hfail hne
    refine ⟨(failState w1 b.1 (b.2 w1.st).1 e).st, ?_⟩
    rw [hstep]
    have hck := failState_clock w1 b.1 ((b.2 w1.st).1) e
    have hlg := failState_log w1 b.1 ((b.2 w1.st).1) e
    have e1 : failState w1 b.1 (b.2 w1.st).1 e =
        (⟨(failState w1 b.1 (b.2 w1.st).1 e).st, w.clock + pre.length + 1 + rbLen none,
          w.log ++ primIds pre ++ [b.1] ++ rbIds none⟩ : RunSt) := by
      refine runSt_ext _ _ rfl ?_ ?_
      · rw [hck]; simp [hw1, rbLen]
      · rw [hlg]; simp [hw1, rbIds, primIds]
    have e2 : (Scr.mk (cur + pre.length + 1) l (rbInit none)).withRb none =
        Scr.mk (cur + pre.length + 1) l (rbFinal none) := by
      simp [Scr.withRb, rbInit, rbFinal, Scr.cursor, Scr.list, Scr.rb]
    rw [e1, e2]
  | some rbs =>
    obtain ⟨stR, hpolR, hrbrun⟩ := runScript_okRun rbs (k + 2) ctxBackground
      (failState w1 b.1 (b.2 w1.st).1 e) 0 (rbs.map mkPrim) none
      (hrb rbs rfl) (List.drop_zero _) (fun n _ => rfl)
    have hrbs : (Scr.mk (cur + pre.length + 1) l (rbInit (some rbs))).rb =
        some (Scr.mk 0 (rbs.map mkPrim) none) := by
      simp [Scr.rb, rbInit]
    have hrbfuel : (k + rbLen (some rbs) + 5) + 1 = (k + 2) + rbs.length + 4 := by
      simp [rbLen]; omega
    have hfail := runAction_prim_fail_rollback (k + rbLen (some rbs) + 5) ctx w1
      (.mk (cur + pre.length + 1) l (rbInit (some rbs))) b.1 b.2 e
      (⟨stR, (failState w1 b.1 (b.2 w1.st).1 e).clock + rbs.length,
          (failState w1 b.1 (b.2 w1.st).1 e).log ++ primIds rbs⟩)
      (some (.mk (0 + rbs.length) (rbs.map mkPrim) none))
      hctx1 (hbf w1.st) (by rw [hbfp]; exact hp2) (by rw [hbfp]; exact hp8)
      (by rw [hrbfuel, hrbs]; exact hrbrun)
    have hstep := runScript_step_err (k + rbLen (some rbs) + 5) ctx w1 (cur + pre.length) l
      (rbInit (some rbs)) (mkPrim b)
      (⟨stR, (failState w1 b.1 (b.2 w1.st).1 e).clock + rbs.length,
          (failState w1 b.1 (b.2 w1.st).1 e).log ++ primIds rbs⟩)
      ((Scr.mk (cur + pre.length + 1) l (rbInit (some rbs))).withRb
        (some (.mk (0 + rbs.length) (rbs.map mkPrim) none))) e hcur2 hget2 hfail hne
    refine ⟨stR, ?_⟩
    rw [hstep]
    have hck := failState_clock w1 b.1 ((b.2 w1.st).1) e
    have hlg := failState_log w1 b.1 ((b.2 w1.st).1) e
    have e1 : (⟨stR, (failState w1 b.1 (b.2 w1.st).1 e).clock + rbs.length,
          (failState w1 b.1 (b.2 w1.st).1 e).log ++ primIds rbs⟩ : RunSt) =
        (⟨stR, w.clock + pre.length + 1 + rbLen (some rbs),
          w.log ++ primIds pre ++ [b.1] ++ rbIds (some rbs)⟩ : RunSt) := by
      refine runSt_ext _ _ rfl ?_ ?_
      · rw [hck]; simp [hw1, rbLen]
      · rw [hlg]; simp [hw1, rbIds, primIds]
    have e2 : (Scr.mk (cur + pre.length + 1) l (rbInit (some rbs))).withRb
          (some (.mk (0 + rbs.length) (rbs.map mkPrim) none)) =
        Scr.mk (cur + pre.length + 1) l (rbFinal (some rbs)) := by
      simp [Scr.withRb, rbInit, rbFinal, Scr.cursor, Scr.list, Scr.rb]
    rw [e1, e2]

lemma drop_head_facts (l : List ActionT) (cur : Nat) (x : ActionT) (rest : List ActionT)
    (h : l.drop cur = x :: rest) :
    cur < l.length ∧ l.getD cur (.addA []) = x ∧ l.drop (cur + 1) = rest := by
  have hlen := congrArg List.length h
  simp [List.length_drop] at hlen
  have hcur : cur < l.length := by omega
  have hdc : l.drop cur = l[cur] :: l.drop (cur + 1) := List.drop_eq_getElem_cons hcur
  have hpair := List.cons_eq_cons.mp (hdc.symm.trans h)
  exact ⟨hcur, by rw [List.getD_eq_getElem _ _ hcur]; exact hpair.1, hpair.2⟩

/-- Running a block of policy-preserving leaf actions under a policy
with the `Continue` bit set: every action runs (failures are suppressed
and trigger no rollback) and the cursor advances past the block. -/
lemma runScript_contSeg (ps : List Prim) :
    ∀ (k : Nat) (ctx : Ctx) (w : RunSt) (cur : Nat) (l : List ActionT)
      (rb : Option Scr) (rest : List ActionT),
    (∀ p ∈ ps, ∀ st, ((p.2 st).1).Policy = st.Policy) →
    w.st.Policy &&& policyContinue ≠ 0 →
    l.drop cur = ps.map mkPrim ++ rest →
    (∀ n, n < w.clock + ps.length → ctx n = false) →
    ∃ stF, stF.Policy = w.st.Policy ∧
      runScript (k + ps.length + 4) ctx w (some (.mk cur l rb)) =
        runScript (k + 4) ctx ⟨stF, w.clock + ps.length, w.log ++ primIds ps⟩
          (some (.mk (cur + ps.length) l rb)) := by
  induction ps with
  | nil =>
    intro k ctx w cur l rb rest hpp hcont hdrop hctx
    exact ⟨w.st, rfl, by simp [primIds]⟩
  | cons p ps ih =>
    intro k ctx w cur l rb rest hpp hcont hdrop hctx
    rw [List.map_cons, List.cons_append] at hdrop
    obtain ⟨hcur, hget, hdrop2⟩ := drop_head_facts l cur (mkPrim p) _ hdrop
    have hctx0 : ctx w.clock = false := hctx w.clock (by simp)
    have hppw := hpp p (List.mem_cons_self p ps) w.st
    -- the action either succeeds or has its error suppressed by Continue
    cases hres : (p.2 w.st).2 with
    | none =>
      have hstep := runScript_step (k + ps.length + 1) ctx w cur l rb (mkPrim p)
        ({ w with st := (p.2 w.st).1, clock := w.clock + 1, log := w.log ++ [p.1] })
        (.mk (cur + 1) l rb) hcur hget
        (runAction_prim_ok (k + ps.length + 1) ctx w (.mk (cur + 1) l rb) p.1 p.2 hctx0 hres)
      obtain ⟨stF, hpol, hrun⟩ := ih k ctx
        ({ w with st := (p.2 w.st).1, clock := w.clock + 1, log := w.log ++ [p.1] })
        (cur + 1) l rb rest (fun q hq => hpp q (List.mem_cons_of_mem p hq))
        (by simpa [hppw] using hcont) hdrop2
        (fun n hn => hctx n (by simp at hn ⊢; omega))
      refine ⟨stF, by rw [hpol]; simpa using hppw, ?_⟩
      have harith : k + (p :: ps).length + 4 = (k + ps.length + 1) + 4 := by simp; omega
      rw [harith, hstep, hrun]
      simp [primIds, Nat.add_assoc, Nat.add_comm, Nat.add_left_comm, List.append_assoc]
    | some e =>
      have hcontp : ((p.2 w.st).1).Policy &&& policyContinue ≠ 0 := by
        rw [hppw]; exact hcont
      have hstep := runScript_step (k + ps.length + 1) ctx w cur l rb (mkPrim p)
        (failState w p.1 (p.2 w.st).1 e) (.mk (cur + 1) l rb) hcur hget
        (runAction_prim_fail_continue (k + ps.length + 1) ctx w (.mk (cur + 1) l rb)
          p.1 p.2 e hctx0 hres hcontp)
      have hwp : (failState w p.1 (p.2 w.st).1 e).st.Policy = w.st.Policy := by
        rw [failState_policy, hppw]
      obtain ⟨stF, hpol, hrun⟩ := ih k ctx (failState w p.1 (p.2 w.st).1 e)
        (cur + 1) l rb rest (fun q hq => hpp q (List.mem_cons_of_mem p hq))
        (by rw [hwp]; exact hcont) hdrop2
        (fun n hn => hctx n (by rw [failState_clock] at hn; simp at hn ⊢; omega))
      refine ⟨stF, by rw [hpol, hwp], ?_⟩
      have harith : k + (p :: ps).length + 4 = (k + ps.length + 1) + 4 := by simp; omega
      rw [harith, hstep, hrun]
      rw [failState_clock, failState_log]
      simp [primIds, Nat.add_assoc, Nat.add_comm, Nat.add_left_comm, List.append_assoc]

/-- Full continue-mode run: a script of policy-preserving leaf actions,
some of which may fail, completes cleanly with every action executed
once in order and the rollback child untouched. -/
lemma runScript_contRun (ps : List Prim) (k : Nat) (ctx : Ctx) (w : RunSt)
    (rb : Option Scr)
    (hpp : ∀ p ∈ ps, ∀ st, ((p.2 st).1).Policy = st.Policy)
    (hcont : w.st.Policy &&& policyContinue ≠ 0)
    (hctx : ∀ n, n < w.clock + ps.length → ctx n = false) :
    ∃ stF, stF.Policy = w.st.Policy ∧
      runScript (k + ps.length + 4) ctx w (some (.mk 0 (ps.map mkPrim) rb)) =
        (⟨stF, w.clock + ps.length, w.log ++ primIds ps⟩,
          some (.mk ps.length (ps.map mkPrim) rb), none) := by
  obtain ⟨stF, hpol, hrun⟩ := runScript_contSeg ps k ctx w 0 (ps.map mkPrim) rb []
    hpp hcont (by simp) hctx
  refine ⟨stF, hpol, ?_⟩
  rw [hrun]
  have h4 : k + 4 = (k + 2) + 2 := by omega
  rw [h4, runScript_end (k + 2) ctx _ _ _ rb (by simp)]
  simp

/-- A failing action whose registered rollback itself contains a
failing action: the rollback aborts at its failing entry (later
rollback actions never run) and the two errors are combined into one
report. -/
lemma runScript_failRunRbFail (pre : List Prim) (b : Prim) (e : GoErr) (post : List ActionT)
    (rbOk : List Prim) (rbBad : Prim) (re : GoErr) (rbPost : List ActionT)
    (k : Nat) (ctx : Ctx) (w : RunSt) (cur : Nat) (l : List ActionT)
    (hl : l.drop cur = pre.map mkPrim ++ mkPrim b :: post)
    (hpre : ∀ p ∈ pre, OkPrim p)
    (hbf : ∀ st, (b.2 st).2 = some e)
    (hbp : ∀ st, ((b.2 st).1).Policy = st.Policy)
    (hrbok : ∀ p ∈ rbOk, OkPrim p)
    (hrbf : ∀ st, (rbBad.2 st).2 = some re)
    (hrbp : ∀ st, ((rbBad.2 st).1).Policy = st.Policy)
    (hree : re ≠ .eofE)
    (hp2 : w.st.Policy &&& policyContinue = 0)
    (hp8 : w.st.Policy &&& policySkipRollback = 0)
    (hctx : ∀ n, n ≤ w.clock + pre.length → ctx n = false) :
    ∃ stF,
      runScript (k + pre.length + rbOk.length + 14) ctx w
        (some (.mk cur l (some (.mk 0 (rbOk.map mkPrim ++ mkPrim rbBad :: rbPost) none)))) =
        (⟨stF, w.clock + pre.length + 1 + rbOk.length + 1,
            w.log ++ primIds pre ++ [b.1] ++ primIds rbOk ++ [rbBad.1]⟩,
          some (.mk (cur + pre.length + 1) l
            (some (.mk (rbOk.length + 1) (rbOk.map mkPrim ++ mkPrim rbBad :: rbPost) none))),
          some (.rollbackFailed e re)) := by
  have harith : k + pre.length + rbOk.length + 14 = (k + rbOk.length + 10) + pre.length + 4 := by
    omega
  rw [harith]
  obtain ⟨st1, hpol1, hseg⟩ := runScript_okSeg pre (k + rbOk.length + 10) ctx w cur l
    (some (.mk 0 (rbOk.map mkPrim ++ mkPrim rbBad :: rbPost) none)) (mkPrim b :: post)
    hpre hl (fun n hn => hctx n (by omega))
  rw [hseg]
  set w1 : RunSt := ⟨st1, w.clock + pre.length, w.log ++ primIds pre⟩ with hw1
  obtain ⟨hcur2, hget2, _⟩ := drop_head_facts l (cur + pre.length) (mkPrim b) post
    (by
      have h1 : (l.drop cur).drop pre.length = l.drop (cur + pre.length) :=
        List.drop_drop pre.length cur l
      rw [hl] at h1
      rw [List.drop_left' (by simp)] at h1
      exact h1.symm)
  have hctx1 : ctx w1.clock = false := hctx (w.clock + pre.length) (by omega)
  have hbfp : ((b.2 w1.st).1).Policy = w.st.Policy := by rw [hbp w1.st]; exact hpol1
  -- the inner rollback run is itself a fail-fast run that aborts at rbBad
  have hfsp : (failState w1 b.1 (b.2 w1.st).1 e).st.Policy = w.st.Policy := by
    rw [failState_policy]; exact hbfp
  obtain ⟨stR, hrbrun⟩ := runScript_failRun rbOk rbBad re rbPost none (k + 2) ctxBackground
    (failState w1 b.1 (b.2 w1.st).1 e) 0 (rbOk.map mkPrim ++ mkPrim rbBad :: rbPost)
    (by simp) hrbok hrbf hrbp hree
    (by rw [hfsp]; exact hp2) (by rw [hfsp]; exact hp8)
    (fun ps hps => by cases hps) (fun n _ => rfl)
  have hrbfuel : (k + rbOk.length + 10) + 1 = (k + 2) + rbOk.length + rbLen none + 9 := by
    simp [rbLen]; omega
  have hfail := runAction_prim_fail_rollback_err (k + rbOk.length + 10) ctx w1
    (.mk (cur + pre.length + 1) l
      (some (.mk 0 (rbOk.map mkPrim ++ mkPrim rbBad :: rbPost) none))) b.1 b.2 e
    (⟨stR, (failState w1 b.1 (b.2 w1.st).1 e).clock + rbOk.length + 1 + rbLen none,
        (failState w1 b.1 (b.2 w1.st).1 e).log ++ primIds rbOk ++ [rbBad.1] ++ rbIds none⟩)
    (some (.mk (0 + rbOk.length + 1) (rbOk.map mkPrim ++ mkPrim rbBad :: rbPost)
      (rbFinal none))) re
    hctx1 (hbf w1.st) (by rw [hbfp]; exact hp2) (by rw [hbfp]; exact hp8)
    (by
      rw [hrbfuel]
      have hscrb : (Scr.mk (cur + pre.length + 1) l
          (some (.mk 0 (rbOk.map mkPrim ++ mkPrim rbBad :: rbPost) none))).rb =
          some (.mk 0 (rbOk.map mkPrim ++ mkPrim rbBad :: rbPost) (rbInit none)) := by
        simp [Scr.rb, rbInit]
      rw [hscrb]
      exact hrbrun)
  have hstep := runScript_step_err (k + rbOk.length + 10) ctx w1 (cur + pre.length) l
    (some (.mk 0 (rbOk.map mkPrim ++ mkPrim rbBad :: rbPost) none)) (mkPrim b)
    (⟨stR, (failState w1 b.1 (b.2 w1.st).1 e).clock + rbOk.length + 1 + rbLen none,
        (failState w1 b.1 (b.2 w1.st).1 e).log ++ primIds rbOk ++ [rbBad.1] ++ rbIds none⟩)
    ((Scr.mk (cur + pre.length + 1) l
        (some (.mk 0 (rbOk.map mkPrim ++ mkPrim rbBad :: rbPost) none))).withRb
      (some (.mk (0 + rbOk.length + 1) (rbOk.map mkPrim ++ mkPrim rbBad :: rbPost)
        (rbFinal none)))) (.rollbackFailed e re) hcur2 hget2 hfail (by simp)
  refine ⟨stR, ?_⟩
  rw [hstep]
  have hck := failState_clock w1 b.1 ((b.2 w1.st).1) e
  have hlg := failState_log w1 b.1 ((b.2 w1.st).1) e
  have e1 : (⟨stR, (failState w1 b.1 (b.2 w1.st).1 e).clock + rbOk.length + 1 + rbLen none,
        (failState w1 b.1 (b.2 w1.st).1 e).log ++ primIds rbOk ++ [rbBad.1] ++ rbIds none⟩ : RunSt) =
      (⟨stR, w.clock + pre.length + 1 + rbOk.length + 1,
        w.log ++ primIds pre ++ [b.1] ++ primIds rbOk ++ [rbBad.1]⟩ : RunSt) := by
    refine runSt_ext _ _ rfl ?_ ?_
    · rw [hck]; simp [hw1, rbLen]
    · rw [hlg]; simp [hw1, rbIds, primIds]
  have e2 : (Scr.mk (cur + pre.length + 1) l
        (some (.mk 0 (rbOk.map mkPrim ++ mkPrim rbBad :: rbPost) none))).withRb
      (some (.mk (0 + rbOk.length + 1) (rbOk.map mkPrim ++ mkPrim rbBad :: rbPost)
        (rbFinal none))) =
      Scr.mk (cur + pre.length + 1) l
        (some (.mk (rbOk.length + 1) (rbOk.map mkPrim ++ mkPrim rbBad :: rbPost) none)) := by
    simp [Scr.withRb, rbFinal, Scr.cursor, Scr.list, Scr.rb]
  rw [e1, e2]

/-- A minimal concrete state: empty environment and bucket, the given
policy byte. -/
def mkState (p : Nat) : GoState := ⟨[], "", 0, p, [], [], []⟩

/-- C1: under the zero (fail-fast) policy, when the action at the
cursor fails with a non-`io.EOF` error `e` and the accumulated rollback
sequence (possibly absent) succeeds, `Run` returns exactly `e`, the
cursor stops right after the failing action, and the event log shows
that no action positioned after it was invoked (only the preceding
block, the failing action, and the rollback actions ran). -/
theorem failfast_returns_error_no_later_action
    (pre : List Prim) (b : Prim) (e : GoErr) (post : List ActionT)
    (rbo : Option (List Prim)) (k : Nat) (ctx : Ctx) (w : RunSt)
    (hpre : ∀ p ∈ pre, OkPrim p)
    (hbf : ∀ st, (b.2 st).2 = some e)
    (hbp : ∀ st, ((b.2 st).1).Policy = st.Policy)
    (hne : e ≠ .eofE)
    (hpol : w.st.Policy = policyFail)
    (hrb : ∀ ps, rbo = some ps → ∀ p ∈ ps, OkPrim p)
    (hctx : ∀ n, n ≤ w.clock + pre.length → ctx n = false) :
    ∃ stF,
      runScript (k + pre.length + rbLen rbo + 9) ctx w
        (some (.mk 0 (pre.map mkPrim ++ mkPrim b :: post) (rbInit rbo))) =
        (⟨stF, w.clock + pre.length + 1 + rbLen rbo,
            w.log ++ primIds pre ++ [b.1] ++ rbIds rbo⟩,
          some (.mk (pre.length + 1) (pre.map mkPrim ++ mkPrim b :: post) (rbFinal rbo)),
          some e) := by
  have h := runScript_failRun pre b e post rbo k ctx w 0
    (pre.map mkPrim ++ mkPrim b :: post) (by simp) hpre hbf hbp hne
    (by rw [hpol]; rfl) (by rw [hpol]; rfl) hrb hctx
  simpa using h

/-- C1 counterexample: under the zero policy, a failing action whose
registered rollback also fails makes `Run` return the combined
"rollback failed" report, not the action's own error — refuting the
claim that the action's error is always what `Run` returns. -/
theorem failfast_combined_error_counterexample :
    (runScript 40 ctxBackground ⟨mkState 0, 0, []⟩
        (some (.mk 0 [.prim 1 (fun st => (st, some (.emsg "boom")))]
          (some (.mk 0 [.prim 2 (fun st => (st, some (.emsg "rb")))] none))))).2.2 =
      some (.rollbackFailed (.emsg "boom") (.emsg "rb")) ∧
    some (GoErr.rollbackFailed (.emsg "boom") (.emsg "rb")) ≠ some (GoErr.emsg "boom") := by
  exact ⟨by decide, by decide⟩

/-- C1 witness: the theorem at a one-action script with no rollback. -/
theorem failfast_returns_error_no_later_action_witness :
    ∃ stF,
      runScript (1 + List.length ([] : List Prim) + rbLen none + 9) ctxBackground
          ⟨mkState 0, 0, []⟩
        (some (.mk 0 (([] : List Prim).map mkPrim ++
            mkPrim ((1, fun st => (st, some (.emsg "boom"))) : Prim) :: []) (rbInit none))) =
        (⟨stF, 0 + List.length ([] : List Prim) + 1 + rbLen none,
            [] ++ primIds [] ++ [((1, fun st => (st, some (GoErr.emsg "boom"))) : Prim).1] ++ rbIds none⟩,
          some (.mk (List.length ([] : List Prim) + 1)
            (([] : List Prim).map mkPrim ++
              mkPrim ((1, fun st => (st, some (.emsg "boom"))) : Prim) :: []) (rbFinal none)),
          some (.emsg "boom")) :=
  failfast_returns_error_no_later_action [] ((1, fun st => (st, some (.emsg "boom"))) : Prim)
    (.emsg "boom") [] none 1 ctxBackground ⟨mkState 0, 0, []⟩
    (by simp) (fun _ => rfl) (fun _ => rfl) (by simp) rfl
    (fun ps hps => by cases hps) (fun n _ => rfl)

/-- C2: with `Continue` and `SkipRollback` clear, a failing action
triggers the registered rollback before the run returns.  First
conjunct: when every rollback action succeeds, each runs exactly once,
in registration order, and the original error is returned; the
cancellation token is only assumed unfired up to the failing action's
poll — the rollback completes even if cancellation fires afterwards,
because it runs under the fresh background token.  Second conjunct:
when a rollback action fails, the rollback aborts there (later rollback
actions never run, the rollback cursor stops just past the failing
entry) and the triggering and rollback errors are combined into one
report. -/
theorem rollback_exactly_once_and_report :
    (∀ (pre : List Prim) (b : Prim) (e : GoErr) (post : List ActionT) (rbs : List Prim)
        (k : Nat) (ctx : Ctx) (w : RunSt),
      (∀ p ∈ pre, OkPrim p) →
      (∀ st, (b.2 st).2 = some e) →
      (∀ st, ((b.2 st).1).Policy = st.Policy) →
      e ≠ .eofE →
      w.st.Policy &&& policyContinue = 0 →
      w.st.Policy &&& policySkipRollback = 0 →
      (∀ p ∈ rbs, OkPrim p) →
      (∀ n, n ≤ w.clock + pre.length → ctx n = false) →
      ∃ stF,
        runScript (k + pre.length + rbs.length + 9) ctx w
          (some (.mk 0 (pre.map mkPrim ++ mkPrim b :: post) (rbInit (some rbs)))) =
          (⟨stF, w.clock + pre.length + 1 + rbs.length,
              w.log ++ primIds pre ++ [b.1] ++ primIds rbs⟩,
            some (.mk (pre.length + 1) (pre.map mkPrim ++ mkPrim b :: post)
              (rbFinal (some rbs))),
            some e)) ∧
    (∀ (pre : List Prim) (b : Prim) (e : GoErr) (post : List ActionT)
        (rbOk : List Prim) (rbBad : Prim) (re : GoErr) (rbPost : List ActionT)
        (k : Nat) (ctx : Ctx) (w : RunSt),
      (∀ p ∈ pre, OkPrim p) →
      (∀ st, (b.2 st).2 = some e) →
      (∀ st, ((b.2 st).1).Policy = st.Policy) →
      (∀ p ∈ rbOk, OkPrim p) →
      (∀ st, (rbBad.2 st).2 = some re) →
      (∀ st, ((rbBad.2 st).1).Policy = st.Policy) →
      re ≠ .eofE →
      w.st.Policy &&& policyContinue = 0 →
      w.st.Policy &&& policySkipRollback = 0 →
      (∀ n, n ≤ w.clock + pre.length → ctx n = false) →
      ∃ stF,
        runScript (k + pre.length + rbOk.length + 14) ctx w
          (some (.mk 0 (pre.map mkPrim ++ mkPrim b :: post)
            (some (.mk 0 (rbOk.map mkPrim ++ mkPrim rbBad :: rbPost) none)))) =
          (⟨stF, w.clock + pre.length + 1 + rbOk.length + 1,
              w.log ++ primIds pre ++ [b.1] ++ primIds rbOk ++ [rbBad.1]⟩,
            some (.mk (pre.length + 1) (pre.map mkPrim ++ mkPrim b :: post)
              (some (.mk (rbOk.length + 1)
                (rbOk.map mkPrim ++ mkPrim rbBad :: rbPost) none))),
            some (.rollbackFailed e re))) := by
  constructor
  · intro pre b e post rbs k ctx w hpre hbf hbp hne hp2 hp8 hrbs hctx
    have h := runScript_failRun pre b e post (some rbs) k ctx w 0
      (pre.map mkPrim ++ mkPrim b :: post) (by simp) hpre hbf hbp hne hp2 hp8
      (fun ps hps => by cases hps; exact hrbs) hctx
    simpa [rbLen, rbIds, primIds] using h
  · intro pre b e post rbOk rbBad re rbPost k ctx w hpre hbf hbp hrbok hrbf hrbp hree hp2 hp8 hctx
    have h := runScript_failRunRbFail pre b e post rbOk rbBad re rbPost k ctx w 0
      (pre.map mkPrim ++ mkPrim b :: post) (by simp) hpre hbf hbp hrbok hrbf hrbp hree
      hp2 hp8 hctx
    simpa using h

/-- C2 counterexample: a rollback sequence of a failing action followed
by a succeeding one — the second registered rollback action (id 3)
never runs, refuting "every registered rollback action runs". -/
theorem rollback_abort_counterexample :
    (runScript 40 ctxBackground ⟨mkState 0, 0, []⟩
        (some (.mk 0 [.prim 1 (fun st => (st, some (.emsg "boom")))]
          (some (.mk 0 [.prim 2 (fun st => (st, some (.emsg "rb"))),
                        .prim 3 (fun st => (st, none))] none))))).1.log = [1, 2] ∧
    (runScript 40 ctxBackground ⟨mkState 0, 0, []⟩
        (some (.mk 0 [.prim 1 (fun st => (st, some (.emsg "boom")))]
          (some (.mk 0 [.prim 2 (fun st => (st, some (.emsg "rb"))),
                        .prim 3 (fun st => (st, none))] none))))).2.2 =
      some (.rollbackFailed (.emsg "boom") (.emsg "rb")) := by
  exact ⟨by decide, by decide⟩

/-- C2 witness: both conjuncts at a concrete script — a failing action
with rollback `[4]` (first conjunct) and with rollback `[4, bad 5, 6]`
(second conjunct), under a token that fires right after the failing
action's poll. -/
theorem rollback_exactly_once_and_report_witness :
    (∃ stF,
      runScript (1 + 0 + 1 + 9) (fun n => decide (1 ≤ n)) ⟨mkState 0, 0, []⟩
        (some (.mk 0 ([] ++ mkPrim ((9, fun st => (st, some (.emsg "x"))) : Prim) :: [])
          (rbInit (some ([((4, fun st => (st, none)) : Prim)]))))) =
        (⟨stF, 0 + 0 + 1 + 1, [] ++ primIds [] ++ [9] ++ primIds ([((4, fun st => (st, none)) : Prim)])⟩,
          some (.mk (0 + 1) ([] ++ mkPrim ((9, fun st => (st, some (.emsg "x"))) : Prim) :: [])
            (rbFinal (some ([((4, fun st => (st, none)) : Prim)])))),
          some (.emsg "x"))) ∧
    (∃ stF,
      runScript (1 + 0 + 1 + 14) (fun n => decide (1 ≤ n)) ⟨mkState 0, 0, []⟩
        (some (.mk 0 ([] ++ mkPrim ((9, fun st => (st, some (.emsg "x"))) : Prim) :: [])
          (some (.mk 0 (([((4, fun st => (st, none)) : Prim)]).map mkPrim ++
            mkPrim ((5, fun st => (st, some (.emsg "y"))) : Prim) :: [mkPrim ((6, fun st => (st, none)) : Prim)])
            none)))) =
        (⟨stF, 0 + 0 + 1 + 1 + 1,
            [] ++ primIds [] ++ [9] ++ primIds ([((4, fun st => (st, none)) : Prim)]) ++ [5]⟩,
          some (.mk (0 + 1) ([] ++ mkPrim ((9, fun st => (st, some (.emsg "x"))) : Prim) :: [])
            (some (.mk (1 + 1) (([((4, fun st => (st, none)) : Prim)]).map mkPrim ++
              mkPrim ((5, fun st => (st, some (.emsg "y"))) : Prim) ::
                [mkPrim ((6, fun st => (st, none)) : Prim)]) none))),
          some (.rollbackFailed (.emsg "x") (.emsg "y")))) := by
  constructor
  · exact rollback_exactly_once_and_report.1 [] ((9, fun st => (st, some (.emsg "x"))) : Prim)
      (.emsg "x") [] ([((4, fun st => (st, none)) : Prim)]) 1 (fun n => decide (1 ≤ n))
      ⟨mkState 0, 0, []⟩ (by simp) (fun _ => rfl) (fun _ => rfl) (by simp) rfl rfl
      (by intro p hp; simp at hp; subst hp; exact fun st => ⟨rfl, rfl⟩)
      (by intro n hn; simp at hn; subst hn; rfl)
  · exact rollback_exactly_once_and_report.2 [] ((9, fun st => (st, some (.emsg "x"))) : Prim)
      (.emsg "x") [] ([((4, fun st => (st, none)) : Prim)]) ((5, fun st => (st, some (.emsg "y"))) : Prim)
      (.emsg "y") [mkPrim ((6, fun st => (st, none)) : Prim)] 1 (fun n => decide (1 ≤ n))
      ⟨mkState 0, 0, []⟩ (by simp) (fun _ => rfl) (fun _ => rfl)
      (by intro p hp; simp at hp; subst hp; exact fun st => ⟨rfl, rfl⟩)
      (fun _ => rfl) (fun _ => rfl) (by simp) rfl rfl
      (by intro n hn; simp at hn; subst hn; rfl)

/-- C3: with the `Continue` bit set, a failing action's error never
surfaces.  First conjunct (`RunAction` level): a failing leaf action
returns no error and leaves the script — in particular its rollback
child — untouched, so the failure triggers no rollback.  Second
conjunct (`Run` level): a script of policy-preserving leaf actions,
failing or not, runs every action once in order and completes cleanly
with the rollback child exactly as it started. -/
theorem continue_suppresses_and_runs_rest :
    (∀ (k : Nat) (ctx : Ctx) (w : RunSt) (sc : Scr) (i : Nat)
        (f : GoState → GoState × Option GoErr) (e : GoErr),
      ctx w.clock = false →
      (f w.st).2 = some e →
      ((f w.st).1).Policy &&& policyContinue ≠ 0 →
      runAction (k + 2) ctx w sc (.prim i f) = (failState w i (f w.st).1 e, sc, none)) ∧
    (∀ (ps : List Prim) (k : Nat) (ctx : Ctx) (w : RunSt) (rb : Option Scr),
      (∀ p ∈ ps, ∀ st, ((p.2 st).1).Policy = st.Policy) →
      w.st.Policy &&& policyContinue ≠ 0 →
      (∀ n, n < w.clock + ps.length → ctx n = false) →
      ∃ stF, stF.Policy = w.st.Policy ∧
        runScript (k + ps.length + 4) ctx w (some (.mk 0 (ps.map mkPrim) rb)) =
          (⟨stF, w.clock + ps.length, w.log ++ primIds ps⟩,
            some (.mk ps.length (ps.map mkPrim) rb), none)) := by
  exact ⟨fun k ctx w sc i f e hctx hfail hcont =>
      runAction_prim_fail_continue k ctx w sc i f e hctx hfail hcont,
    fun ps k ctx w rb hpp hcont hctx => runScript_contRun ps k ctx w rb hpp hcont hctx⟩

/-- C3 witness: both conjuncts at a concrete failing action under
policy `Continue`: the single action is suppressed, and a two-action
script (fail then succeed) runs both actions and returns success with
the rollback child untouched. -/
theorem continue_suppresses_and_runs_rest_witness :
    (runAction (0 + 2) ctxBackground ⟨mkState 2, 0, []⟩ (.mk 0 [] none)
        (.prim 7 (fun st => (st, some (.emsg "x")))) =
      (failState ⟨mkState 2, 0, []⟩ 7
        ((fun (st : GoState) => (st, some (GoErr.emsg "x"))) (mkState 2)).1 (.emsg "x"),
        .mk 0 [] none, none)) ∧
    (∃ stF, stF.Policy = (mkState 2).Policy ∧
      runScript (0 + 2 + 4) ctxBackground ⟨mkState 2, 0, []⟩
        (some (.mk 0
          (([((7, fun st => (st, some (.emsg "x"))) : Prim),
             ((8, fun st => (st, none)) : Prim)]).map mkPrim) none)) =
        (⟨stF, 0 + 2,
            [] ++ primIds [((7, fun st => (st, some (.emsg "x"))) : Prim),
              ((8, fun st => (st, none)) : Prim)]⟩,
          some (.mk 2
            (([((7, fun st => (st, some (.emsg "x"))) : Prim),
               ((8, fun st => (st, none)) : Prim)]).map mkPrim) none), none)) := by
  constructor
  · exact continue_suppresses_and_runs_rest.1 0 ctxBackground ⟨mkState 2, 0, []⟩
      (.mk 0 [] none) 7 (fun st => (st, some (.emsg "x"))) (.emsg "x") rfl rfl (by decide)
  · exact continue_suppresses_and_runs_rest.2
      [((7, fun st => (st, some (.emsg "x"))) : Prim), ((8, fun st => (st, none)) : Prim)]
      0 ctxBackground ⟨mkState 2, 0, []⟩ none
      (by intro p hp; simp at hp; rcases hp with h | h <;> subst h <;> exact fun st => rfl)
      (by decide) (fun n _ => rfl)

/-- C4 (amended): an unrecognized policy byte is silently handled
according to its recognized bits alone; no configuration error is
reported.  First conjunct: with the `Continue`, `Log` and
`SkipRollback` bits all clear — whatever the remaining bits hold, e.g.
16 — a failing action behaves exactly like `PolicyFail`: the action's
own error is returned (after consulting the absent rollback) and
nothing is logged.  Second conjunct: with the `Continue` bit set and
`Log` clear, the failure is suppressed, again regardless of any
unrecognized bits. -/
theorem policy_bits_silently_decide :
    (∀ (p : Nat) (k : Nat) (ctx : Ctx) (w : RunSt) (cur : Nat) (l : List ActionT)
        (i : Nat) (e : GoErr),
      p &&& policyContinue = 0 → p &&& policyLog = 0 → p &&& policySkipRollback = 0 →
      w.st.Policy = p → ctx w.clock = false →
      runAction (k + 2) ctx w (.mk cur l none) (.prim i (fun st => (st, some e))) =
        ({ w with clock := w.clock + 1, log := w.log ++ [i] }, .mk cur l none, some e)) ∧
    (∀ (p : Nat) (k : Nat) (ctx : Ctx) (w : RunSt) (sc : Scr) (i : Nat) (e : GoErr),
      p &&& policyContinue ≠ 0 → p &&& policyLog = 0 →
      w.st.Policy = p → ctx w.clock = false →
      runAction (k + 2) ctx w sc (.prim i (fun st => (st, some e))) =
        ({ w with clock := w.clock + 1, log := w.log ++ [i] }, sc, none)) := by
  constructor
  · intro p k ctx w cur l i e h2 h4 h8 hw hctx
    have h := runAction_prim_fail_rollback k ctx w (.mk cur l none) i
      (fun st => (st, some e)) e
      (failState w i w.st e) none hctx rfl (by simpa [hw] using h2) (by simpa [hw] using h8)
      (by
        have : (Scr.mk cur l none).rb = none := rfl
        rw [this]
        exact runScript_noneScr _ ctxBackground _)
    rw [h]
    have hfs : failState w i w.st e = { w with clock := w.clock + 1, log := w.log ++ [i] } := by
      unfold failState
      rw [if_neg (by simp [hw, h4])]
    rw [hfs]
    rfl
  · intro p k ctx w sc i e h2 h4 hw hctx
    have h := runAction_prim_fail_continue k ctx w sc i (fun st => (st, some e)) e
      hctx rfl (by simpa [hw] using h2)
    rw [h]
    have hfs : failState w i w.st e = { w with clock := w.clock + 1, log := w.log ++ [i] } := by
      unfold failState
      rw [if_neg (by simp [hw, h4])]
    rw [hfs]

/-- C4 counterexample: under the unrecognized policy byte 16 a failing
action is handled exactly as fail-fast — `Run` returns the action's own
error and nothing reaches the error logger; no configuration error
about the policy value is produced anywhere. -/
theorem unknown_policy_counterexample :
    (runScript 40 ctxBackground ⟨mkState 16, 0, []⟩
        (some (.mk 0 [.prim 1 (fun st => (st, some (.emsg "boom")))] none))).2.2 =
      some (.emsg "boom") ∧
    (runScript 40 ctxBackground ⟨mkState 16, 0, []⟩
        (some (.mk 0 [.prim 1 (fun st => (st, some (.emsg "boom")))] none))).1.st.errLog =
      [] := by
  exact ⟨by decide, by decide⟩

/-- C4 witness: the theorem's two conjuncts at the unrecognized policy
bytes 16 and 18. -/
theorem policy_bits_silently_decide_witness :
    (runAction (0 + 2) ctxBackground ⟨mkState 16, 0, []⟩ (.mk 0 [] none)
        (.prim 1 (fun st => (st, some (.emsg "b")))) =
      ({ st := mkState 16, clock := 0 + 1, log := [] ++ [1] }, .mk 0 [] none,
        some (.emsg "b"))) ∧
    (runAction (0 + 2) ctxBackground ⟨mkState 18, 0, []⟩ (.mk 0 [] none)
        (.prim 1 (fun st => (st, some (.emsg "b")))) =
      ({ st := mkState 18, clock := 0 + 1, log := [] ++ [1] }, .mk 0 [] none, none)) := by
  constructor
  · exact policy_bits_silently_decide.1 16 0 ctxBackground ⟨mkState 16, 0, []⟩ 0 [] 1
      (.emsg "b") (by decide) (by decide) (by decide) rfl rfl
  · exact policy_bits_silently_decide.2 18 0 ctxBackground ⟨mkState 18, 0, []⟩
      (.mk 0 [] none) 1 (.emsg "b") (by decide) (by decide) rfl rfl

/-- C5: `Defer` registers its actions in both places.  First conjunct
(structural): dispatching a defer action appends the actions to the end
of the live list and to the end of the (lazily created) rollback
sequence, and succeeds.  Second conjunct (behavioral): a script that
defers a leaf action `a` and then appends a failing action runs `a`
once in forward progress (after its declared position is reached) and
again during the triggered rollback — the event log is exactly
`[a, fail, a]`. -/
theorem defer_runs_forward_and_rollback :
    (∀ (k : Nat) (ctx : Ctx) (w : RunSt) (sc : Scr) (acts : List ActionT),
      ctx w.clock = false →
      runAction (k + 2) ctx w sc (.deferA acts) =
        ({ w with clock := w.clock + 1 }, sc.deferAdd acts, none) ∧
      (sc.deferAdd acts).list = sc.list ++ acts ∧
      rbList (sc.deferAdd acts) = rbList sc ++ acts) ∧
    (∀ (a b : Prim) (e : GoErr) (k : Nat) (ctx : Ctx) (w : RunSt),
      OkPrim a →
      (∀ st, (b.2 st).2 = some e) →
      (∀ st, ((b.2 st).1).Policy = st.Policy) →
      e ≠ .eofE →
      w.st.Policy = policyFail →
      (∀ n, ctx n = false) →
      ∃ stF,
        runScript (k + 13) ctx w
          (some (.mk 0 [.deferA [mkPrim a], .addA [mkPrim b]] none)) =
          (⟨stF, w.clock + 5, w.log ++ [a.1, b.1, a.1]⟩,
            some (.mk 4 [.deferA [mkPrim a], .addA [mkPrim b], mkPrim a, mkPrim b]
              (some (.mk 1 [mkPrim a] none))),
            some e)) := by
  constructor
  · intro k ctx w sc acts hctx
    refine ⟨runAction_deferA k ctx w sc acts hctx, ?_, ?_⟩
    · cases sc with
      | mk c li r =>
        cases r <;> simp [Scr.deferAdd, Scr.addRollback, Scr.add, Scr.withRb,
          Scr.list, Scr.cursor, Scr.rb]
    · cases sc with
      | mk c li r =>
        cases r <;> simp [rbList, Scr.deferAdd, Scr.addRollback, Scr.add, Scr.withRb,
          Scr.list, Scr.cursor, Scr.rb]
  · intro a b e k ctx w hok hbf hbp hne hpol hctx
    -- step 1: the defer action registers `a` in both places
    have hstep1 := runScript_step (k + 9) ctx w 0
      [.deferA [mkPrim a], .addA [mkPrim b]] none (.deferA [mkPrim a])
      ({ w with clock := w.clock + 1 })
      ((Scr.mk 1 [.deferA [mkPrim a], .addA [mkPrim b]] none).deferAdd [mkPrim a])
      (by simp) rfl
      (runAction_deferA (k + 9) ctx w _ [mkPrim a] (hctx w.clock))
    have hsc1 : (Scr.mk 1 [.deferA [mkPrim a], .addA [mkPrim b]] none).deferAdd [mkPrim a] =
        Scr.mk 1 [.deferA [mkPrim a], .addA [mkPrim b], mkPrim a]
          (some (.mk 0 [mkPrim a] none)) := by
      simp [Scr.deferAdd, Scr.addRollback, Scr.add, Scr.withRb, Scr.list, Scr.cursor, Scr.rb]
    -- step 2: the add action appends the failing action
    have hstep2 := runScript_step (k + 8) ctx ({ w with clock := w.clock + 1 }) 1
      [.deferA [mkPrim a], .addA [mkPrim b], mkPrim a] (some (.mk 0 [mkPrim a] none))
      (.addA [mkPrim b]) ({ w with clock := w.clock + 1 + 1 })
      ((Scr.mk 2 [.deferA [mkPrim a], .addA [mkPrim b], mkPrim a]
        (some (.mk 0 [mkPrim a] none))).add [mkPrim b])
      (by simp) rfl
      (by
        have h := runAction_addA (k + 8) ctx ({ w with clock := w.clock + 1 })
          (.mk 2 [.deferA [mkPrim a], .addA [mkPrim b], mkPrim a]
            (some (.mk 0 [mkPrim a] none))) [mkPrim b] (hctx (w.clock + 1))
        simpa using h)
    have hsc2 : (Scr.mk 2 [.deferA [mkPrim a], .addA [mkPrim b], mkPrim a]
        (some (.mk 0 [mkPrim a] none))).add [mkPrim b] =
        Scr.mk 2 [.deferA [mkPrim a], .addA [mkPrim b], mkPrim a, mkPrim b]
          (some (.mk 0 [mkPrim a] none)) := by
      simp [Scr.add, Scr.list, Scr.cursor, Scr.rb]
    -- the tail of the run is a fail-fast run: `a` forward, `b` fails, rollback `a`
    obtain ⟨stF, hrun⟩ := runScript_failRun [a] b e [] (some [a]) k ctx
      ({ w with clock := w.clock + 1 + 1 }) 2
      [.deferA [mkPrim a], .addA [mkPrim b], mkPrim a, mkPrim b]
      (by simp) (by intro p hp; simp at hp; subst hp; exact hok) hbf hbp hne
      (by rw [hpol]; rfl) (by rw [hpol]; rfl)
      (by intro ps hps; cases hps; intro p hp; simp at hp; subst hp; exact hok)
      (fun n _ => hctx n)
    refine ⟨stF, ?_⟩
    have harith : k + 13 = (k + 9) + 4 := by omega
    rw [harith, hstep1, hsc1]
    have harith2 : (k + 9) + 3 = (k + 8) + 4 := by omega
    rw [harith2, hstep2, hsc2]
    have harith3 : (k + 8) + 3 = k + [a].length + rbLen (some [a]) + 9 := by
      simp [rbLen]
    rw [harith3]
    have hrbi : (some (Scr.mk 0 [mkPrim a] none)) = rbInit (some [a]) := by
      simp [rbInit]
    rw [hrbi, hrun]
    have e1 : (⟨stF, ({ w with clock := w.clock + 1 + 1 } : RunSt).clock + [a].length + 1 +
          rbLen (some [a]),
        ({ w with clock := w.clock + 1 + 1 } : RunSt).log ++ primIds [a] ++ [b.1] ++
          rbIds (some [a])⟩ : RunSt) =
        (⟨stF, w.clock + 5, w.log ++ [a.1, b.1, a.1]⟩ : RunSt) := by
      refine runSt_ext _ _ rfl ?_ ?_
      · simp [rbLen]
      · simp [primIds, rbIds]
    rw [e1]
    simp [rbFinal]

/-- C5 witness: the structural conjunct on a fresh script, and the
behavioral conjunct on concrete succeeding/failing leaf actions. -/
theorem defer_runs_forward_and_rollback_witness :
    (runAction (0 + 2) ctxBackground ⟨mkState 0, 0, []⟩ (.mk 0 [] none)
        (.deferA [mkPrim ((7, fun st => (st, none)) : Prim)]) =
      ({ st := mkState 0, clock := 0 + 1, log := [] },
        (Scr.mk 0 [] none).deferAdd [mkPrim ((7, fun st => (st, none)) : Prim)], none) ∧
      ((Scr.mk 0 [] none).deferAdd [mkPrim ((7, fun st => (st, none)) : Prim)]).list =
        [] ++ [mkPrim ((7, fun st => (st, none)) : Prim)] ∧
      rbList ((Scr.mk 0 [] none).deferAdd [mkPrim ((7, fun st => (st, none)) : Prim)]) =
        rbList (.mk 0 [] none) ++ [mkPrim ((7, fun st => (st, none)) : Prim)]) ∧
    (∃ stF,
      runScript (0 + 13) ctxBackground ⟨mkState 0, 0, []⟩
        (some (.mk 0 [.deferA [mkPrim ((7, fun st => (st, none)) : Prim)],
          .addA [mkPrim ((8, fun st => (st, some (.emsg "x"))) : Prim)]] none)) =
        (⟨stF, 0 + 5, [] ++ [7, 8, 7]⟩,
          some (.mk 4 [.deferA [mkPrim ((7, fun st => (st, none)) : Prim)],
            .addA [mkPrim ((8, fun st => (st, some (.emsg "x"))) : Prim)],
            mkPrim ((7, fun st => (st, none)) : Prim),
            mkPrim ((8, fun st => (st, some (.emsg "x"))) : Prim)]
            (some (.mk 1 [mkPrim ((7, fun st => (st, none)) : Prim)] none))),
          some (.emsg "x"))) := by
  constructor
  · exact defer_runs_forward_and_rollback.1 0 ctxBackground ⟨mkState 0, 0, []⟩
      (.mk 0 [] none) [mkPrim ((7, fun st => (st, none)) : Prim)] rfl
  · exact defer_runs_forward_and_rollback.2 ((7, fun st => (st, none)) : Prim)
      ((8, fun st => (st, some (.emsg "x"))) : Prim) (.emsg "x") 0 ctxBackground
      ⟨mkState 0, 0, []⟩ (fun st => ⟨rfl, rfl⟩) (fun _ => rfl) (fun _ => rfl)
      (by simp) rfl (fun _ => rfl)

/-- C10: running the action returned by `Command.Exec` with a nil
enclosing `Script` fails immediately with the "missing Script" error,
for every command tree, argument vector, cancellation token and state —
in particular before any flag declaration is consulted, any environment
variable read or any token consumed, and with the whole run bookkeeping
(bucket included) returned untouched. -/
theorem exec_nil_script_guard (fuel : Nat) (ctx : Ctx) (w : RunSt)
    (c : Cmd) (args : List String) :
    runDispatch (fuel + 1) ctx w none (.execA c args) =
      (w, none, some (.emsg "missing Script")) := rfl

/-- The test suite's `cmder` command: flags `f1` (default `"ghi"`),
`f2` (default `"nmo"`), `f3` (default `"fhg"`, environment fallback
`CMDER_F3`), with a bound leaf action. -/
def cmderCmd : Cmd := .mk "cmder" "Example Commander"
  [⟨"f1", "", "set the current f1", none, some (.vStr "ghi"), flagAuto⟩,
   ⟨"f2", "", "set the current f2", none, some (.vStr "nmo"), flagAuto⟩,
   ⟨"f3", "CMDER_F3", "set the current f3", none, some (.vStr "fhg"), flagAuto⟩]
  [] (some (.prim 99 (fun st => (st, none))))

/-- A state whose environment holds `CMDER_F3=sky`. -/
def envSky : GoState := ⟨[("CMDER_F3", "sky")], "", 0, 0, [], [], []⟩

/-- C8: the three end-to-end scenarios.  With `CMDER_F3=sky` and
arguments `-f3 box`, the run succeeds with bucket `f1="ghi"`,
`f2="nmo"`, `f3="box"` (explicit argument overrides environment); with
the same environment and no arguments, `f3="sky"`; with an empty
environment and no arguments, `f3="fhg"`. -/
theorem cmder_env_scenarios :
    ((taskRun 40 ctxBackground ⟨envSky, 0, []⟩ (.execA cmderCmd ["-f3", "box"])).2.2 = none ∧
      stGet (taskRun 40 ctxBackground ⟨envSky, 0, []⟩
        (.execA cmderCmd ["-f3", "box"])).1.st "f1" = some (.vStr "ghi") ∧
      stGet (taskRun 40 ctxBackground ⟨envSky, 0, []⟩
        (.execA cmderCmd ["-f3", "box"])).1.st "f2" = some (.vStr "nmo") ∧
      stGet (taskRun 40 ctxBackground ⟨envSky, 0, []⟩
        (.execA cmderCmd ["-f3", "box"])).1.st "f3" = some (.vStr "box")) ∧
    ((taskRun 40 ctxBackground ⟨envSky, 0, []⟩ (.execA cmderCmd [])).2.2 = none ∧
      stGet (taskRun 40 ctxBackground ⟨envSky, 0, []⟩
        (.execA cmderCmd [])).1.st "f3" = some (.vStr "sky")) ∧
    ((taskRun 40 ctxBackground ⟨mkState 0, 0, []⟩ (.execA cmderCmd [])).2.2 = none ∧
      stGet (taskRun 40 ctxBackground ⟨mkState 0, 0, []⟩
        (.execA cmderCmd [])).1.st "f3" = some (.vStr "fhg")) := by
  exact ⟨⟨by decide, by decide, by decide, by decide⟩,
    ⟨by decide, by decide⟩, ⟨by decide, by decide⟩⟩

/-- C7 counterexample: with `CMDER_F3=sky`, the arguments
`-f3 a -f3 b` are accepted — the second explicit argument for `f3` is
not rejected (the run succeeds and the bucket holds the second value),
refuting "a second explicit argument for the same flag is always
rejected with an error". -/
theorem resupply_env_override_counterexample :
    (taskRun 40 ctxBackground ⟨envSky, 0, []⟩
        (.execA cmderCmd ["-f3", "a", "-f3", "b"])).2.2 = none ∧
    stGet (taskRun 40 ctxBackground ⟨envSky, 0, []⟩
        (.execA cmderCmd ["-f3", "a", "-f3", "b"])).1.st "f3" = some (.vStr "b") := by
  exact ⟨by decide, by decide⟩

/-- C7 (amended): `flagStatus.set` rejects re-supplying a flag whose
existing value was not environment-sourced (first conjunct); an
explicit argument for an environment-sourced flag proceeds exactly as a
fresh supply (second conjunct); and an explicit set never clears the
environment-sourced mark (third conjunct) — so once a flag has been
supplied from the environment, any number of explicit arguments are
accepted for it, each overriding the last. -/
theorem flag_resupply_rules :
    (∀ (fs : FlagSt) (st : GoState) (vs : String),
      fs.used = true → fs.env = false →
      flagSet fs st vs false = (fs, st, some (alreadyDeclaredErr fs.flag.name))) ∧
    (∀ (fs : FlagSt) (st : GoState) (vs : String),
      fs.env = true →
      flagSet fs st vs false = flagSet { fs with used := false } st vs false) ∧
    (∀ (fs : FlagSt) (st : GoState) (vs : String),
      ((flagSet fs st vs false).1).env = fs.env) := by
  refine ⟨?_, ?_, ?_⟩
  · intro fs st vs h1 h2
    simp [flagSet, h1, h2]
  · intro fs st vs h
    simp [flagSet, h]
  · intro fs st vs
    unfold flagSet flagSetGo
    split
    · rfl
    · split_ifs <;> (repeat' split) <;> simp

/-- C7 witness: the three conjuncts at concrete flag statuses — an
explicitly used flag rejects a re-supply; an environment-sourced one
accepts an override as a fresh set; the environment mark survives an
explicit set. -/
theorem flag_resupply_rules_witness :
    (flagSet ⟨⟨"f", "", "", none, none, flagString⟩, true, false⟩ (mkState 0) "v" false =
      (⟨⟨"f", "", "", none, none, flagString⟩, true, false⟩, mkState 0,
        some (alreadyDeclaredErr "f"))) ∧
    (flagSet ⟨⟨"f", "E", "", none, none, flagString⟩, true, true⟩ (mkState 0) "v" false =
      flagSet ⟨⟨"f", "E", "", none, none, flagString⟩, false, true⟩ (mkState 0) "v" false) ∧
    (((flagSet ⟨⟨"f", "E", "", none, none, flagString⟩, true, true⟩
        (mkState 0) "v" false).1).env = true) := by
  refine ⟨?_, ?_, ?_⟩
  · exact flag_resupply_rules.1 ⟨⟨"f", "", "", none, none, flagString⟩, true, false⟩
      (mkState 0) "v" rfl rfl
  · exact flag_resupply_rules.2.1 ⟨⟨"f", "E", "", none, none, flagString⟩, true, true⟩
      (mkState 0) "v" rfl
  · exact flag_resupply_rules.2.2 ⟨⟨"f", "E", "", none, none, flagString⟩, true, true⟩
      (mkState 0) "v"

/-- C9: reaching a non-flag token when the node has children.  First
conjunct, at the parse loop: with no pending value token, a non-empty
token that does not start with the flag marker, under a non-empty child
lookup, first applies declared defaults to every still-unset flag; a
token matching no child yields the usage error naming that token, while
a matching child makes the loop return success with the child's own
`Exec` on the remaining tokens as the one action to append.  Second
conjunct, through the engine: the parent's `Exec` action then succeeds,
appending those actions to the end of the live script with the event
log untouched — nothing of the child runs until the cursor later
reaches the appended action. -/
theorem subcommand_lazy_dispatch :
    (∀ (c : Cmd) (cmdL : List (String × Cmd)) (lookup : List (String × FlagSt))
        (st : GoState) (a : String) (args : List String),
      a.length ≠ 0 → strHead a ≠ '-' → cmdL.length ≠ 0 →
      parseLoop c cmdL lookup none st (a :: args) =
        (match alistGet cmdL a with
         | none => .ret lookup (applyDefaults lookup st) []
             (some (helpError c ("invalid command " ++ quoteS a)))
         | some cmd => .ret lookup (applyDefaults lookup st) [.execA cmd args] none)) ∧
    (∀ (fuel : Nat) (ctx : Ctx) (w : RunSt) (sc : Scr) (c : Cmd) (args : List String)
        (p1 : List FlagSt) (st1 : GoState) (l2 : List (String × FlagSt)) (st2 : GoState)
        (appends : List ActionT),
      initFlags c.flags w.st = .ok p1 st1 →
      parseLoop (execTree c p1) (buildCmdLookup c.commands) (buildLookup p1) none st1 args =
        .ret l2 st2 appends none →
      runDispatch (fuel + 1) ctx w (some sc) (.execA c args) =
        ({ w with st := st2 }, some (sc.add appends), none)) := by
  constructor
  · intro c cmdL lookup st a args h1 h2 h3
    rw [parseLoop]
    rw [if_neg h1, if_pos h2, if_neg h3]
  · intro fuel ctx w sc c args p1 st1 l2 st2 appends hinit hparse
    rw [runDispatch]
    show ({ w with st := (execCore c args w.st).st },
        some (sc.add (execCore c args w.st).appends), (execCore c args w.st).e) = _
    unfold execCore
    rw [hinit]
    simp only []
    rw [hparse]

/-- The child command of the C9 witness scenario. -/
def run2Cmd : Cmd := .mk "run2" "second" [] [] (some (.prim 55 (fun st => (st, none))))

/-- The parent command of the C9 witness scenario: one flag, one
child, no bound action of its own. -/
def parentCmd : Cmd := .mk "cmder" "Example"
  [⟨"f1", "", "", none, some (.vStr "ghi"), flagAuto⟩] [run2Cmd] none

/-- C9 witness: the parse-loop conjunct at the token `run2` of the
concrete parent node, and the engine conjunct dispatching to the
child. -/
theorem subcommand_lazy_dispatch_witness :
    (parseLoop parentCmd (buildCmdLookup parentCmd.commands) [] none (mkState 0)
        ("run2" :: ["x"]) =
      (match alistGet (buildCmdLookup parentCmd.commands) "run2" with
       | none => .ret [] (applyDefaults [] (mkState 0)) []
           (some (helpError parentCmd ("invalid command " ++ quoteS "run2")))
       | some cmd => .ret [] (applyDefaults [] (mkState 0)) [.execA cmd ["x"]] none)) ∧
    (runDispatch (5 + 1) ctxBackground ⟨mkState 0, 0, []⟩ (some (.mk 0 [] none))
        (.execA parentCmd ["run2"]) =
      ({ st := stSet (mkState 0) "f1" (.vStr "ghi"), clock := 0, log := [] },
        some ((Scr.mk 0 [] none).add [.execA run2Cmd []]), none)) := by
  constructor
  · exact subcommand_lazy_dispatch.1 parentCmd (buildCmdLookup parentCmd.commands) []
      (mkState 0) "run2" ["x"] (by decide) (by decide) (by decide)
  · exact subcommand_lazy_dispatch.2 5 ctxBackground ⟨mkState 0, 0, []⟩ (.mk 0 [] none)
      parentCmd ["run2"]
      [⟨⟨"f1", "", "", none, some (.vStr "ghi"), flagString⟩, false, false⟩] (mkState 0)
      [("f1", ⟨⟨"f1", "", "", none, some (.vStr "ghi"), flagString⟩, false, false⟩)]
      (stSet (mkState 0) "f1" (.vStr "ghi")) [.execA run2Cmd []]
      (by decide) rfl

/-! Frame analysis of `Command.Exec` over the command tree: the run
mutates, in place, only each flag's declared kind (`Auto` inference),
its default (numeric widening) and its bound value cell; the name,
usage text and environment fallback name of every flag — and the node's
own name, usage, children and bound action — are never written. -/

/-- The immutable part of a flag declaration: name, usage text,
environment fallback name. -/
def flagShape (f : FlagD) : String × String × String := (f.name, f.usage, f.env)

lemma flagInitV_fst (fl : FlagD) : (flagInitV fl).1 = fl := by
  unfold flagInitV
  split
  · rfl
  · split <;> rfl

lemma inferFromCell_shape (fl : FlagD) : flagShape (inferFromCell fl) = flagShape fl := by
  unfold inferFromCell
  split <;> rfl

lemma inferFromDefault_shape (fl : FlagD) :
    flagShape (inferFromDefault fl) = flagShape fl := by
  unfold inferFromDefault
  split <;> rfl

lemma flagInitD_shape (fl : FlagD) : flagShape ((flagInitD fl).1) = flagShape fl := by
  unfold flagInitD
  split
  · rw [flagInitV_fst]
  · split <;> first | rfl | (rw [flagInitV_fst]; rfl)

lemma flagInit_shape (fl : FlagD) : flagShape ((flagInit fl).1) = flagShape fl := by
  unfold flagInit
  rw [flagInitD_shape, inferFromDefault_shape, inferFromCell_shape]

lemma flagSetGo_shape (fs2 : FlagSt) (st : GoState) (vs : String) :
    flagShape (((flagSetGo fs2 st vs).1).flag) = flagShape fs2.flag := by
  unfold flagSetGo cellWriteStr cellWriteBool cellWriteInt cellWriteFloat cellWriteDur
  split_ifs <;> (repeat' split) <;> rfl

lemma flagSet_shape (fs : FlagSt) (st : GoState) (vs : String) (b : Bool) :
    flagShape (((flagSet fs st vs b).1).flag) = flagShape fs.flag := by
  unfold flagSet
  split
  · rfl
  · rw [flagSetGo_shape]

lemma envSupply_shape (fs0 : FlagSt) (st : GoState) :
    flagShape (((envSupply fs0 st).1).flag) = flagShape fs0.flag := by
  unfold envSupply
  split
  · split
    · split
      · exact flagSet_shape fs0 st _ true
      · rfl
    · rfl
  · rfl

/-- The flag shapes recorded by an `initFlags` outcome: the processed
part followed, on abort, by the untouched remainder. -/
def initShapes : InitOut → List (String × String × String)
  | .ok p1 _ => p1.map (fun fs => flagShape fs.flag)
  | .err p1 rem _ _ => p1.map (fun fs => flagShape fs.flag) ++ rem.map flagShape

lemma initFlags_shapes (fls : List FlagD) :
    ∀ st, initShapes (initFlags fls st) = fls.map flagShape := by
  induction fls with
  | nil => intro st; rfl
  | cons fl rest ih =>
    intro st
    rw [initFlags]
    rcases hfi : flagInit fl with ⟨fl2, e?⟩
    have hsh : flagShape fl2 = flagShape fl := by
      have := flagInit_shape fl
      rw [hfi] at this
      exact this
    cases e? with
    | some e => simp [initShapes, hsh, hfi]
    | none =>
      rcases hes : envSupply ⟨fl2, false, false⟩ st with ⟨fs, st2, e2?⟩
      have hsh2 : flagShape fs.flag = flagShape fl := by
        have := envSupply_shape ⟨fl2, false, false⟩ st
        rw [hes] at this
        simpa [hsh] using this
      cases e2? with
      | some e => simp [initShapes, hsh2, hes]
      | none =>
        have := ih st2
        cases hrec : initFlags rest st2 with
        | ok p1 st3 =>
          rw [hrec] at this
          simp [initShapes, hsh2, hes, hrec] at this ⊢
          exact this
        | err p1 rem st3 e =>
          rw [hrec] at this
          simp [initShapes, hsh2, hes, hrec] at this ⊢
          exact this

/-- The flag lookup carried by a parse-loop outcome. -/
def POut.lookupOf : POut → List (String × FlagSt)
  | .done l _ _ => l
  | .ret l _ _ _ => l

lemma alistGet_upsert {α : Type} (k k2 : String) (v : α) (l : List (String × α)) :
    alistGet (upsert k v l) k2 = if k = k2 then some v else alistGet l k2 := by
  induction l with
  | nil => simp [upsert, alistGet]
  | cons p rest ih =>
    rcases p with ⟨k3, v3⟩
    by_cases h3 : k3 = k
    · subst h3
      by_cases h2 : k3 = k2 <;> simp [upsert, alistGet, h2]
    · by_cases h2 : k3 = k2
      · subst h2
        have : ¬(k = k3) := fun he => h3 he.symm
        simp [upsert, alistGet, h3, this]
      · simp [upsert, alistGet, h3, h2, ih]

/-- Pointwise agreement of flag shapes: every key present in both maps
carries flags of equal shape. -/
def ShapeLe (l l2 : List (String × FlagSt)) : Prop :=
  ∀ nm x y, alistGet l2 nm = some x → alistGet l nm = some y →
    flagShape x.flag = flagShape y.flag

lemma shapeLe_refl (l : List (String × FlagSt)) : ShapeLe l l := by
  intro nm x y hx hy
  rw [hx] at hy
  rw [Option.some.inj hy]

lemma shapeLe_upsert (l : List (String × FlagSt)) (nm0 : String) (fs2 : FlagSt)
    (h : ∀ y, alistGet l nm0 = some y → flagShape fs2.flag = flagShape y.flag) :
    ShapeLe l (upsert nm0 fs2 l) := by
  intro nm x y hx hy
  rw [alistGet_upsert] at hx
  by_cases he : nm0 = nm
  · subst he
    simp only [if_pos rfl] at hx
    rw [← Option.some.inj hx]
    exact h y hy
  · rw [if_neg he] at hx
    rw [hx] at hy
    rw [Option.some.inj hy]

lemma shapeLe_comp_upsert (l l2 : List (String × FlagSt)) (nm0 : String) (fs2 : FlagSt)
    (h : ∀ y, alistGet l nm0 = some y → flagShape fs2.flag = flagShape y.flag)
    (h2 : ShapeLe (upsert nm0 fs2 l) l2) : ShapeLe l l2 := by
  intro nm x y hx hy
  by_cases he : nm0 = nm
  · subst he
    have hmid : alistGet (upsert nm0 fs2 l) nm0 = some fs2 := by
      rw [alistGet_upsert, if_pos rfl]
    exact (h2 nm0 x fs2 hx hmid).trans (h y hy)
  · have hmid : alistGet (upsert nm0 fs2 l) nm = some y := by
      rw [alistGet_upsert, if_neg he]
      exact hy
    exact h2 nm x y hx hmid

lemma parseLoop_shapeLe (c : Cmd) (cmdL : List (String × Cmd)) (args : List String) :
    ∀ (lookup : List (String × FlagSt)) (nf : Option String) (st : GoState),
    ShapeLe lookup (POut.lookupOf (parseLoop c cmdL lookup nf st args)) := by
  induction args with
  | nil =>
    intro lookup nf st
    exact shapeLe_refl lookup
  | cons a args ih =>
    intro lookup nf st
    rw [parseLoop.eq_def]
    cases nf with
    | some nf0 =>
      dsimp only
      have hsh := flagSet_shape ((alistGet lookup nf0).getD default) st a false
      rcases hfs : flagSet ((alistGet lookup nf0).getD default) st a false with ⟨fs2, st2, e2⟩
      rw [hfs] at hsh
      have hany : ∀ y, alistGet lookup nf0 = some y →
          flagShape fs2.flag = flagShape y.flag := by
        intro y hy
        rw [hy] at hsh
        simpa using hsh
      cases e2 with
      | some e =>
        dsimp only [POut.lookupOf]
        exact shapeLe_upsert lookup nf0 fs2 hany
      | none =>
        dsimp only
        exact shapeLe_comp_upsert lookup _ nf0 { fs2 with used := true } hany (ih _ none st2)
    | none =>
      dsimp only
      split
      · exact ih lookup none st
      · split
        · split
          · exact shapeLe_refl lookup
          · cases alistGet cmdL a with
            | none => exact shapeLe_refl lookup
            | some cmd => exact shapeLe_refl lookup
        · split
          · exact shapeLe_refl lookup
          · cases hget : alistGet lookup ((goSplitN2 (strTail a)).headD "") with
            | none => exact shapeLe_refl lookup
            | some fs =>
              dsimp only
              cases hnv : goSplitN2 (strTail a) with
              | nil =>
                dsimp only
                rw [hnv] at hget
                have hsh := flagSet_shape fs st "" false
                rcases hfs : flagSet fs st "" false with ⟨fs2, st2, e2⟩
                rw [hfs] at hsh
                have hany : ∀ y, alistGet lookup ((List.nil (α := String)).headD "") = some y →
                    flagShape fs2.flag = flagShape y.flag := by
                  intro y hy
                  rw [hget] at hy
                  rw [Option.some.inj hy] at hsh
                  exact hsh
                cases e2 with
                | some e => exact shapeLe_upsert lookup _ fs2 hany
                | none => exact shapeLe_comp_upsert lookup _ _ _ hany (ih _ none st2)
              | cons hd tl =>
                cases tl with
                | nil =>
                  dsimp only
                  rw [hnv] at hget
                  split
                  · exact ih lookup _ st
                  · have hsh := flagSet_shape fs st "" false
                    rcases hfs : flagSet fs st "" false with ⟨fs2, st2, e2⟩
                    rw [hfs] at hsh
                    have hany : ∀ y, alistGet lookup ([hd].headD "") = some y →
                        flagShape fs2.flag = flagShape y.flag := by
                      intro y hy
                      rw [hget] at hy
                      rw [Option.some.inj hy] at hsh
                      exact hsh
                    cases e2 with
                    | some e => exact shapeLe_upsert lookup _ fs2 hany
                    | none => exact shapeLe_comp_upsert lookup _ _ _ hany (ih _ none st2)
                | cons v tl2 =>
                  dsimp only
                  rw [hnv] at hget
                  have hsh := flagSet_shape fs st v false
                  rcases hfs : flagSet fs st v false with ⟨fs2, st2, e2⟩
                  rw [hfs] at hsh
                  have hany : ∀ y, alistGet lookup ((hd :: v :: tl2).headD "") = some y →
                      flagShape fs2.flag = flagShape y.flag := by
                    intro y hy
                    rw [hget] at hy
                    rw [Option.some.inj hy] at hsh
                    exact hsh
                  cases e2 with
                  | some e => exact shapeLe_upsert lookup _ fs2 hany
                  | none => exact shapeLe_comp_upsert lookup _ _ _ hany (ih _ none st2)

/-- The last flag status in a list bearing a given name (what a
later-overwrites-earlier map build keeps for that name). -/
def lastWithName : List FlagSt → String → Option FlagSt
  | [], _ => none
  | fs :: rest, nm =>
    match lastWithName rest nm with
    | some x => some x
    | none => if fs.flag.name = nm then some fs else none

lemma buildLookupGo_get (l : List FlagSt) :
    ∀ (acc : List (String × FlagSt)) (nm : String),
    alistGet (buildLookup.buildLookupGo acc l) nm =
      match lastWithName l nm with
      | some x => some x
      | none => alistGet acc nm := by
  induction l with
  | nil => intro acc nm; rfl
  | cons fs rest ih =>
    intro acc nm
    rw [buildLookup.buildLookupGo, ih, lastWithName]
    cases hl : lastWithName rest nm with
    | some x => rfl
    | none =>
      dsimp only
      rw [alistGet_upsert]
      by_cases he : fs.flag.name = nm
      · rw [if_pos he, if_pos he]
      · rw [if_neg he, if_neg he]

lemma buildLookup_get (p1 : List FlagSt) (nm : String) :
    alistGet (buildLookup p1) nm = lastWithName p1 nm := by
  cases p1 with
  | nil => rfl
  | cons fs rest =>
    rw [buildLookup, buildLookupGo_get, lastWithName]
    cases hl : lastWithName rest nm with
    | some x => rfl
    | none =>
      dsimp only
      rw [alistGet_upsert]
      by_cases he : fs.flag.name = nm
      · rw [if_pos he, if_pos he]
      · rw [if_neg he, if_neg he]
        rfl

lemma lastWithName_append (l1 l2 : List FlagSt) (nm : String) :
    lastWithName (l1 ++ l2) nm =
      match lastWithName l2 nm with
      | some x => some x
      | none => lastWithName l1 nm := by
  induction l1 with
  | nil =>
    cases hl : lastWithName l2 nm with
    | some x => simpa using hl
    | none => simpa using hl
  | cons fs rest ih =>
    rw [List.cons_append, lastWithName, ih, lastWithName]
    cases hl : lastWithName l2 nm with
    | some x =>
      cases lastWithName rest nm with
      | some y => rfl
      | none => rfl
    | none => rfl

lemma lastWithName_none_of_not_any (l : List FlagSt) (nm : String)
    (h : l.any (fun x => x.flag.name = nm) = false) : lastWithName l nm = none := by
  induction l with
  | nil => rfl
  | cons fs rest ih =>
    rw [List.any_cons, Bool.or_eq_false_iff] at h
    rw [lastWithName, ih h.2]
    dsimp only
    rw [if_neg (by simpa using h.1)]

lemma rebuildFlags_shape (lookup2 : List (String × FlagSt)) (p1full : List FlagSt)
    (H : ∀ nm x y, alistGet lookup2 nm = some x → lastWithName p1full nm = some y →
      flagShape x.flag = flagShape y.flag) :
    ∀ (p1 pre : List FlagSt), p1full = pre ++ p1 →
    (rebuildFlags p1 lookup2).map flagShape = p1.map (fun fs => flagShape fs.flag) := by
  intro p1
  induction p1 with
  | nil => intro pre hsplit; rfl
  | cons fs rest ih =>
    intro pre hsplit
    rw [rebuildFlags, List.map_cons, List.map_cons]
    refine congrArg₂ _ ?_ (ih (pre ++ [fs]) (by rw [hsplit, List.append_assoc]; rfl))
    split
    · rfl
    · rename_i hany
      have hlast : lastWithName p1full fs.flag.name = some fs := by
        rw [hsplit, lastWithName_append, lastWithName,
          lastWithName_none_of_not_any rest _ (by simpa using hany)]
        dsimp only
        rw [if_pos rfl]
      cases hx : alistGet lookup2 fs.flag.name with
      | none => rfl
      | some x => simpa using H _ _ _ hx hlast

/-- C6 (amended): running the action returned by `Command.Exec` preserves
the declarative frame of the executed node — its name, usage text, child
command list and bound action are unchanged, and every flag declaration
keeps its name, usage text and environment fallback name in order — but
the claim as stated is false: `flagStatus.init` normalises each
declaration in place, rewriting an auto value kind to the inferred one
and the default to its checked form, and value parsing writes through
the declaration's value cell. -/
theorem exec_tree_frame (c : Cmd) (args : List String) (st : GoState) :
    (execCore c args st).tree.name = c.name ∧
    (execCore c args st).tree.usage = c.usage ∧
    (execCore c args st).tree.commands = c.commands ∧
    (execCore c args st).tree.action = c.action ∧
    (execCore c args st).tree.flags.map flagShape = c.flags.map flagShape := by
  have hinit := initFlags_shapes c.flags st
  unfold execCore
  cases hif : initFlags c.flags st with
  | err p1 rem st2 e =>
    rw [hif] at hinit
    simp only [initShapes] at hinit
    refine ⟨rfl, rfl, rfl, rfl, ?_⟩
    dsimp only [Cmd.flags, ExecOut.tree]
    rw [List.map_append, List.map_map]
    simpa [Function.comp] using hinit
  | ok p1 st2 =>
    rw [hif] at hinit
    simp only [initShapes] at hinit
    dsimp only
    have hple := parseLoop_shapeLe (execTree c p1) (buildCmdLookup c.commands) args
      (buildLookup p1) none st2
    cases hp : parseLoop (execTree c p1) (buildCmdLookup c.commands)
        (buildLookup p1) none st2 args with
    | ret lookup2 st3 appends e =>
      rw [hp] at hple
      dsimp only [POut.lookupOf] at hple
      have hshape : (rebuildFlags p1 lookup2).map flagShape =
          c.flags.map flagShape := by
        rw [rebuildFlags_shape lookup2 p1
          (fun nm x y hx hy => hple nm x y hx (by rw [buildLookup_get]; exact hy))
          p1 [] rfl]
        exact hinit
      exact ⟨rfl, rfl, rfl, rfl, hshape⟩
    | done lookup2 nextFlag st3 =>
      rw [hp] at hple
      dsimp only [POut.lookupOf] at hple
      have hshape : (rebuildFlags p1 lookup2).map flagShape =
          c.flags.map flagShape := by
        rw [rebuildFlags_shape lookup2 p1
          (fun nm x y hx hy => hple nm x y hx (by rw [buildLookup_get]; exact hy))
          p1 [] rfl]
        exact hinit
      cases nextFlag with
      | some nf => exact ⟨rfl, rfl, rfl, rfl, hshape⟩
      | none =>
        cases c.action with
        | none => exact ⟨rfl, rfl, rfl, rfl, hshape⟩
        | some act => exact ⟨rfl, rfl, rfl, rfl, hshape⟩

/-- C6 counterexample to the literal claim: on the example commander the
flag declarations are declared with the auto value kind, and a run of the
node's `Exec` action rewrites each declaration's kind in place to the
string kind inferred from its default, so the flag declarations are not
identical before and after the run. -/
theorem exec_mutates_value_kind_counterexample :
    ((execCore cmderCmd [] envSky).tree.flags.headD default).type = flagString ∧
    (cmderCmd.flags.headD default).type = flagAuto ∧
    flagString ≠ flagAuto := by
  exact ⟨by decide, by decide, by decide⟩

end TaskSpec
